import Mathlib

/-!
Verification of the report-aggregation engine of the reports-scrapper
repository (src/utils.py, src/excel_helpers.py, src/constants.py).

The spreadsheet cells, rows and files consumed by the aggregators are
modelled shallowly: a cell is an integer, an exact rational (standing for a
Python float), a string, or blank (NaN/None); a file is a name plus an
optional table (none models a missing, zero-length or unreadable file).
Python string/number primitives used by the source (strip, split, replace,
"in", isdigit, float(), int(), round(x, 1), stable sort) are given
executable Lean counterparts operating on character lists, so that every
definition evaluates inside the kernel.
-/

attribute [local semireducible] Rat.add Rat.sub Rat.mul Rat.inv

/-- Spreadsheet cell as pandas hands it to the aggregation code: an integer
column value, a float column value (modelled as an exact rational), a string,
or a missing value (NaN/None). -/
inductive Cell where
  | blank : Cell
  | int : ℤ → Cell
  | float : ℚ → Cell
  | str : String → Cell
deriving DecidableEq, Repr

/-- Model of pandas pd.notna: false exactly on a missing value. -/
def notna : Cell → Bool
  | Cell.blank => false
  | _ => true

/-- Whitespace test used by Python str.strip (ASCII subset). -/
def pySpace (c : Char) : Bool :=
  c = ' ' ∨ c = '\t' ∨ c = '\n' ∨ c = '\r'

/-- Model of Python str.strip(): drop whitespace from both ends. -/
def pyStrip (s : String) : String :=
  ⟨((s.data.dropWhile pySpace).reverse.dropWhile pySpace).reverse⟩

/-- Numeric value of a list of ASCII digits, most significant first. -/
def digitsToNat (l : List Char) : ℕ :=
  l.foldl (fun a c => a * 10 + (c.toNat - 48)) 0

/-- Model of Python float(string): optional sign, then digits with an
optional fractional part ("45", "-3.5", "45.", ".5"); whitespace around the
number is ignored; anything else (including the empty string) fails.
Exponent, infinity and nan forms, which the report cells never hold, are
outside the model. -/
def parseFloat? (s : String) : Option ℚ :=
  let cs := (pyStrip s).data
  let f : List Char → Option ℚ := fun cs =>
    let intPart := cs.takeWhile Char.isDigit
    let rest := cs.dropWhile Char.isDigit
    match rest with
    | [] => if intPart.isEmpty then none else some (digitsToNat intPart)
    | '.' :: fracCs =>
      let fracPart := fracCs.takeWhile Char.isDigit
      let rest2 := fracCs.dropWhile Char.isDigit
      if rest2.isEmpty ∧ (intPart ≠ [] ∨ fracPart ≠ []) then
        some ((digitsToNat intPart : ℚ) +
          (digitsToNat fracPart : ℚ) / (10 : ℚ) ^ fracPart.length)
      else none
    | _ => none
  match cs with
  | '-' :: rest => (f rest).map (fun q => -q)
  | '+' :: rest => f rest
  | _ => f cs

/-- Digits of the fractional part of a float for its Python str() form, with
fuel bounding the number of digits; q is assumed in [0, 1). -/
def fracDigits : ℕ → ℚ → List Char
  | 0, _ => []
  | n + 1, q =>
    if q = 0 then []
    else
      let q10 := q * 10
      let d := ⌊q10⌋
      Char.ofNat (48 + d.toNat) :: fracDigits n (q10 - d)

/-- Model of Python str() on a float value: sign, integer part, a dot, and
fractional digits (at least one, as in "5.0"). -/
def floatRepr (q : ℚ) : String :=
  let a := |q|
  let frac := fracDigits 17 (a - ⌊a⌋)
  (if q < 0 then "-" else "") ++ toString (⌊a⌋.toNat) ++ "." ++
    (if frac.isEmpty then "0" else ⟨frac⟩)

/-- Model of Python str(cell): identity on strings, decimal forms for
numbers, "nan" for a missing value. -/
def cellStr : Cell → String
  | Cell.blank => "nan"
  | Cell.int n => toString n
  | Cell.float q => floatRepr q
  | Cell.str s => s

/-- Model of Python float(cell): numeric cells give their value, strings are
parsed, an unparsable string raises (the error result). The blank case is
never reached by the source: every float() call is guarded by pd.notna. -/
def floatOfCell : Cell → Except Unit ℚ
  | Cell.blank => Except.ok 0
  | Cell.int n => Except.ok n
  | Cell.float q => Except.ok q
  | Cell.str s =>
    match parseFloat? s with
    | some q => Except.ok q
    | none => Except.error ()

/-- Guarded numeric value of one cell: its float() value when it is not NaN
and float() succeeds, else 0 (the source skips the addition, which adds 0). -/
def cellVal (c : Cell) : ℚ :=
  if notna c then
    match floatOfCell c with
    | Except.ok q => q
    | Except.error _ => 0
  else 0

/-- Guarded numeric read used all over utils.py: the value of cell i of a
row when the cell exists (the len(row) > i test), guarded as in cellVal; a
missing cell contributes 0. -/
def numAt (row : List Cell) (i : ℕ) : ℚ :=
  cellVal (row.getD i Cell.blank)

/-- Model of excel_helpers.clean_row_data on one cell: None/NaN becomes the
empty string, every other value is kept. -/
def cleanCell (c : Cell) : Cell :=
  if notna c then c else Cell.str ""

/-- Model of excel_helpers.clean_row_data: replace None/NaN cells of a row
by empty strings. -/
def clean_row_data (row : List Cell) : List Cell :=
  row.map cleanCell

/-- Model of Python int() on a float total: truncation toward zero. -/
def truncQ (q : ℚ) : ℤ :=
  if 0 ≤ q then ⌊q⌋ else ⌈q⌉

/-- Model of Python round(x, 1): round to one decimal place. (Python uses
round-half-to-even on binary floats; ties are immaterial to the claims.) -/
def round1 (q : ℚ) : ℚ :=
  (round (q * 10) : ℚ) / 10

/-- Model of Python str.isdigit() (ASCII digits): nonempty and all digits. -/
def pyIsdigit (s : String) : Bool :=
  ¬ s.data.isEmpty ∧ s.data.all Char.isDigit

/-- Code-point comparison of strings, as Python compares them. -/
def pyLeChars : List Char → List Char → Bool
  | [], _ => true
  | _ :: _, [] => false
  | a :: as, b :: bs =>
    if a.toNat < b.toNat then true
    else if b.toNat < a.toNat then false
    else pyLeChars as bs

/-- String order used when the source sorts file lists and names. -/
def pyLe (a b : String) : Bool :=
  pyLeChars a.data b.data

/-- Stable insertion of an element into a sorted list: x goes before the
first element it is less-or-equal to. -/
def insertS (le : α → α → Bool) (x : α) : List α → List α
  | [] => [x]
  | y :: ys => if le x y then x :: y :: ys else y :: insertS le x ys

/-- Stable sort, modelling Python sorted()/list.sort() (both stable). -/
def sortBy (le : α → α → Bool) (l : List α) : List α :=
  l.foldr (insertS le) []

/-- Split around the first occurrence of sep (a nonempty character list):
the characters before it and the characters after it, or none when sep does
not occur. -/
def breakOnSub (sep : List Char) : List Char → Option (List Char × List Char)
  | [] => none
  | c :: rest =>
    if sep.isPrefixOf (c :: rest) then some ([], (c :: rest).drop sep.length)
    else
      match breakOnSub sep rest with
      | some (pre, post) => some (c :: pre, post)
      | none => none

/-- Model of the Python test sub in s (substring occurrence). -/
def pyIn (sub s : String) : Bool :=
  (breakOnSub sub.data s.data).isSome

/-- Model of Python s.split(sep)[0]: the text before the first occurrence of
sep, or all of s when sep does not occur. -/
def pySplitHead (sep s : String) : String :=
  match breakOnSub sep.data s.data with
  | some (pre, _) => ⟨pre⟩
  | none => s

/-- Model of Python s.replace(c, "") for a one-character target: drop every
occurrence of the character. -/
def pyRemoveChar (t : Char) (s : String) : String :=
  ⟨s.data.filter (fun c => c ≠ t)⟩

/-- Model of Python s.startswith(p). -/
def pyStartswith (s p : String) : Bool :=
  p.data.isPrefixOf s.data

/-- Model of Python s.endswith(p). -/
def pyEndswith (s p : String) : Bool :=
  p.data.reverse.isPrefixOf s.data.reverse

example : parseFloat? "45" = some 45 := by decide
example : parseFloat? "45.0" = some 45 := by decide
example : parseFloat? "N/A" = none := by decide
example : parseFloat? "" = none := by decide
example : parseFloat? "-2.5" = some (-5 / 2) := by decide
example : cellStr (Cell.float (5 / 2)) = "2.5" := by decide
example : cellStr (Cell.float 5) = "5.0" := by decide
example : cellStr (Cell.int 8) = "8" := by decide
example : truncQ (5 / 2) = 2 := by decide
example : truncQ 5 = 5 := by decide
example : round1 (125 / 2) = 125 / 2 := by decide
example : pyIsdigit "8" = true := by decide
example : pyIsdigit "8.0" = false := by decide
example : sortBy pyLe ["b", "a", "c"] = ["a", "b", "c"] := by decide
example : pyIn "_Skill_" "ClassA_Skill_x.xlsx" = true := by decide
example : pySplitHead "_Skill_" "ClassA_Skill_x.xlsx" = "ClassA" := by decide
example : pyRemoveChar '%' "45%" = "45" := by decide
example : pyStrip " ab " = "ab" := by decide
example : pyEndswith "a.xlsx" ".xlsx" = true := by decide

/-! Constants from src/constants.py. -/

/-- Report types recognised by the combiner (constants.REPORT_TYPES). -/
def REPORT_TYPES : List String :=
  ["Student Usage", "Skill", "Assignment", "Assessment", "Level Up Progress"]

/-- Column positions of the Student Usage schema (constants.py). -/
def STUDENT_USAGE_COL_STUDENT_NAME : ℕ := 0

/-- Listen column of the Student Usage schema. -/
def STUDENT_USAGE_COL_LISTEN : ℕ := 5

/-- Read column of the Student Usage schema. -/
def STUDENT_USAGE_COL_READ : ℕ := 6

/-- Quiz column of the Student Usage schema. -/
def STUDENT_USAGE_COL_QUIZ : ℕ := 7

/-- Interactivity column of the Student Usage schema. -/
def STUDENT_USAGE_COL_INTERACTIVITY : ℕ := 8

/-- Practice-recording column of the Student Usage schema. -/
def STUDENT_USAGE_COL_PRACTICE_RECORDING : ℕ := 9

/-- Skill-name column of the Skill schema. -/
def SKILL_COL_SKILL_NAME : ℕ := 0

/-- Correct-answers column of the Skill schema. -/
def SKILL_COL_CORRECT : ℕ := 1

/-- Total-questions column of the Skill schema. -/
def SKILL_COL_TOTAL : ℕ := 2

/-- Accuracy column of the Skill schema. -/
def SKILL_COL_ACCURACY : ℕ := 3

/-- Student column of the Level Up Progress schema. -/
def LEVEL_UP_COL_STUDENT : ℕ := 5

/-- Level column of the Level Up Progress schema. -/
def LEVEL_UP_COL_LEVEL : ℕ := 6

/-- Progress column of the Level Up Progress schema. -/
def LEVEL_UP_COL_PROGRESS : ℕ := 7

/-- Maximum Excel sheet-name length (constants.py). -/
def EXCEL_MAX_SHEET_NAME_LENGTH : ℕ := 31

/-- Characters Excel forbids in sheet names (constants.py). -/
def EXCEL_INVALID_SHEET_CHARS : List Char := [':', '\\', '/', '?', '*', '[', ']']

/-! The file model. -/

/-- Parsed content of one spreadsheet file as pandas read_excel returns it:
the header row (df.columns) and the data rows. -/
structure XTable where
  header : List Cell
  rows : List (List Cell)
deriving DecidableEq, Repr

/-- One file of the reports directory: its filename and its content; none
models a file that is missing, zero-length or that read_excel fails on, so
the per-file validation of the source skips it. -/
structure XFile where
  name : String
  content : Option XTable
deriving DecidableEq, Repr

/-- The per-file validation shared by every aggregator loop: the file is
skipped unless it exists, is non-empty, parses, and df.empty is false. -/
def fileRows (f : XFile) : List (List Cell) :=
  match f.content with
  | none => []
  | some t => if t.rows.isEmpty then [] else t.rows

/-- True when the aggregator loops would process the file. -/
def isGoodFile (f : XFile) : Bool :=
  !(fileRows f).isEmpty

/-- Model of the glob pattern star-underscore-type-underscore-star and the
.xlsx extension: the name ends with ".xlsx" and the underscore-wrapped
report type occurs in the part before the extension. -/
def matchesPattern (reportType name : String) : Bool :=
  pyEndswith name ".xlsx" ∧
    pyIn ("_" ++ reportType ++ "_") ⟨name.data.take (name.data.length - 5)⟩

/-- Model of sorted(files): Python sorts the Path objects of one directory
by their name string. -/
def sortFiles (files : List XFile) : List XFile :=
  sortBy (fun a b => pyLe a.name b.name) files

/-- Files of the directory matching the Student Usage glob pattern. -/
def studentUsageFiles (files : List XFile) : List XFile :=
  files.filter (fun f => matchesPattern "Student Usage" f.name)

example : matchesPattern "Student Usage" "ClassA_Student Usage_x.xlsx" = true := by decide
example : matchesPattern "Skill" "ClassA_Student Usage_x.xlsx" = false := by decide
example : matchesPattern "Student Usage" "_Student Usage_.xlsx" = true := by decide

/-! Model of utils.get_school_summary. -/

/-- Result record of get_school_summary (utils.py lines 758-765). -/
structure SchoolSummary where
  all_teachers : ℕ
  all_students : ℕ
  total_listen : ℤ
  total_read : ℤ
  total_quizzes : ℤ
  total_activities : ℤ
deriving DecidableEq, Repr

/-- The all_data list built by get_school_summary: every data row of every
valid (readable, non-empty) Student Usage file, in sorted file order, with
NaN cells cleaned to empty strings. -/
def schoolAllData (files : List XFile) : List (List Cell) :=
  ((sortFiles (studentUsageFiles files)).map
    (fun f => (fileRows f).map clean_row_data)).flatten

/-- Model of utils.get_school_summary: None when no Student Usage file
matches or when no valid file yields a data row; otherwise teacher count
(= number of matched files), student count (= number of rows), and the
int()-truncated listen/read/quiz/activity totals. -/
def get_school_summary (files : List XFile) : Option SchoolSummary :=
  let fs := studentUsageFiles files
  if fs.isEmpty then none
  else
    let all_data := schoolAllData files
    if all_data.isEmpty then none
    else
      let total_listens := (all_data.map (fun r => numAt r STUDENT_USAGE_COL_LISTEN)).sum
      let total_reads := (all_data.map (fun r => numAt r STUDENT_USAGE_COL_READ)).sum
      let total_quizzes := (all_data.map (fun r => numAt r STUDENT_USAGE_COL_QUIZ)).sum
      some
        { all_teachers := fs.length
          all_students := all_data.length
          total_listen := truncQ total_listens
          total_read := truncQ total_reads
          total_quizzes := truncQ total_quizzes
          total_activities := truncQ (total_listens + total_reads + total_quizzes) }

/-! Model of utils.get_classroom_summaries. -/

/-- One classroom record of get_classroom_summaries (utils.py lines
839-849): the accumulating dictionary entry, later finalized with usage. -/
structure ClassSum where
  name : String
  students : ℕ
  students_used : ℕ
  listen : ℚ
  read : ℚ
  quiz : ℚ
  interactivity : ℚ
  practice_recording : ℚ
  usage : ℚ
deriving DecidableEq, Repr

/-- Fresh dictionary entry for a classroom (all counters zero). -/
def initClass (name : String) : ClassSum :=
  { name := name, students := 0, students_used := 0, listen := 0, read := 0
    quiz := 0, interactivity := 0, practice_recording := 0, usage := 0 }

/-- Per-row body of the get_classroom_summaries loop: increment the student
count, add the guarded listen/read/quiz/interactivity/practice values, and
count the student as used when one of listen/read/quiz is positive. -/
def addRow (c : ClassSum) (row : List Cell) : ClassSum :=
  let lv := numAt row STUDENT_USAGE_COL_LISTEN
  let rv := numAt row STUDENT_USAGE_COL_READ
  let qv := numAt row STUDENT_USAGE_COL_QUIZ
  { c with
    students := c.students + 1
    students_used := c.students_used + (if 0 < lv ∨ 0 < rv ∨ 0 < qv then 1 else 0)
    listen := c.listen + lv
    read := c.read + rv
    quiz := c.quiz + qv
    interactivity := c.interactivity + numAt row STUDENT_USAGE_COL_INTERACTIVITY
    practice_recording :=
      c.practice_recording + numAt row STUDENT_USAGE_COL_PRACTICE_RECORDING }

/-- The classroom_data dictionary, as an insertion-ordered association list
keyed by ClassSum.name (Python dicts preserve insertion order). -/
def updateClass (m : List ClassSum) (k : String) (row : List Cell) : List ClassSum :=
  match m with
  | [] => [addRow (initClass k) row]
  | c :: rest =>
    if c.name = k then addRow c row :: rest else c :: updateClass rest k row

/-- Classroom name extracted from a Student Usage filename (utils.py lines
816-823): the part before the first "_Student Usage_", else "Unknown". -/
def classroomOfSU (filename : String) : String :=
  if pyIn "_Student Usage_" filename then pySplitHead "_Student Usage_" filename
  else "Unknown"

/-- Per-file body of the get_classroom_summaries loop: a skipped file leaves
the dictionary unchanged; a valid one folds its cleaned rows in under the
classroom extracted from the filename. -/
def processSUFile (m : List ClassSum) (f : XFile) : List ClassSum :=
  ((fileRows f).map clean_row_data).foldl
    (fun m' row => updateClass m' (classroomOfSU f.name) row) m

/-- The finalization pass of get_classroom_summaries (lines 925-933):
usage = round(students_used / students * 100, 1), 0 when students = 0. -/
def finalizeUsage (c : ClassSum) : ClassSum :=
  if 0 < c.students then
    { c with usage := round1 ((c.students_used : ℚ) / (c.students : ℚ) * 100) }
  else { c with usage := 0 }

/-- Model of utils.get_classroom_summaries: None when no Student Usage file
matches or the dictionary stays empty; otherwise the finalized classroom
records sorted by classroom name. -/
def get_classroom_summaries (files : List XFile) : Option (List ClassSum) :=
  let fs := studentUsageFiles files
  if fs.isEmpty then none
  else
    let m := (sortFiles fs).foldl processSUFile []
    if m.isEmpty then none
    else
      some (sortBy (fun a b => pyLe a.name b.name) (m.map finalizeUsage))

/-! Model of utils.get_classroom_comparison_data. -/

/-- Result record of get_classroom_comparison_data (utils.py 1463-1468). -/
structure ComparisonData where
  labels : List String
  listen : List ℚ
  read : List ℚ
  quiz : List ℚ
deriving DecidableEq, Repr

/-- Model of utils.get_classroom_comparison_data: a reshape of the
classroom summaries into parallel chart arrays; None when the summaries
are None or empty (the falsy test of the source). -/
def get_classroom_comparison_data (files : List XFile) : Option ComparisonData :=
  match get_classroom_summaries files with
  | none => none
  | some summaries =>
    if summaries.isEmpty then none
    else
      some
        { labels := summaries.map (fun c => c.name)
          listen := summaries.map (fun c => c.listen)
          read := summaries.map (fun c => c.read)
          quiz := summaries.map (fun c => c.quiz) }

/-! Model of utils.get_top_readers_per_classroom. -/

/-- One student entry of the top-readers accumulation (utils.py 1276-1279). -/
structure StudentScore where
  name : String
  score : ℚ
deriving DecidableEq, Repr

/-- One classroom entry of the top-readers result (utils.py 1304-1307). -/
structure ClassTopReaders where
  name : String
  students : List StudentScore
deriving DecidableEq, Repr

/-- Per-row body of the top-readers loop: the stripped student name (empty
name skips the row) with score = guarded listen + guarded read. -/
def studentOfRow (row : List Cell) : Option StudentScore :=
  let student_name :=
    match row.get? STUDENT_USAGE_COL_STUDENT_NAME with
    | some c => pyStrip (cellStr c)
    | none => ""
  if student_name = "" then none
  else
    some
      { name := student_name
        score := numAt row STUDENT_USAGE_COL_LISTEN + numAt row STUDENT_USAGE_COL_READ }

/-- The classroom_students dictionary: insertion-ordered association list,
appending each student to its classroom's list. -/
def addStudent (m : List (String × List StudentScore)) (k : String)
    (s : StudentScore) : List (String × List StudentScore) :=
  match m with
  | [] => [(k, [s])]
  | (k', ss) :: rest =>
    if k' = k then (k', ss ++ [s]) :: rest else (k', ss) :: addStudent rest k s

/-- Per-file body of the top-readers loop. -/
def processTopFile (m : List (String × List StudentScore)) (f : XFile) :
    List (String × List StudentScore) :=
  ((fileRows f).map clean_row_data).foldl
    (fun m' row =>
      match studentOfRow row with
      | none => m'
      | some s => addStudent m' (classroomOfSU f.name) s) m

/-- Final pass per classroom (utils.py 1292-1307): keep students with
positive score, skip the classroom when none remain, else sort by score
descending (stable) and keep the top 3. -/
def topOfClassroom (k : String) (students : List StudentScore) :
    Option ClassTopReaders :=
  let valid_students := students.filter (fun s => 0 < s.score)
  if valid_students.isEmpty then none
  else
    some
      { name := k
        students := (sortBy (fun a b => decide (b.score ≤ a.score)) valid_students).take 3 }

/-- Model of utils.get_top_readers_per_classroom: None when no Student Usage
file matches or no student row was collected; else the per-classroom top-3
lists, classrooms sorted by name. -/
def get_top_readers_per_classroom (files : List XFile) :
    Option (List ClassTopReaders) :=
  let fs := studentUsageFiles files
  if fs.isEmpty then none
  else
    let m := (sortFiles fs).foldl processTopFile []
    if m.isEmpty then none
    else
      some (sortBy (fun a b => pyLe a.name b.name)
        (m.filterMap (fun e => topOfClassroom e.1 e.2)))

/-! Model of utils.get_reading_skills_data. -/

/-- One skill record (utils.py 1018-1037). -/
structure SkillData where
  name : String
  correct : ℤ
  total : ℤ
  accuracy : ℚ
deriving DecidableEq, Repr

/-- One classroom entry of the reading-skills result. -/
structure ClassSkills where
  classroom : String
  skills : List SkillData
deriving DecidableEq, Repr

/-- Model of Python int(cell), reached only under the isdigit guard. -/
def intOfCell : Cell → ℤ
  | Cell.blank => 0
  | Cell.int n => n
  | Cell.float q => truncQ q
  | Cell.str s => digitsToNat s.data

/-- The guarded correct/total read of the skill row (utils.py 1020-1031):
the int() value when the cell is not NaN and str(cell) is all digits,
else 0. -/
def skillCount (c : Cell) : ℤ :=
  if notna c ∧ pyIsdigit (cellStr c) then intOfCell c else 0

/-- Per-row body of the reading-skills loop. A row shorter than 4 cells is
skipped (ok none). The accuracy cell is read with a bare float() call, not
wrapped in try/except: an unparsable value raises, which the per-file
handler catches, so the row and the rest of its file are dropped (error).
Otherwise accuracy is the cell value, derived as round(correct/total*100, 1)
when the cell value is 0 and total is positive. -/
def skillOfRow (row : List Cell) : Except Unit (Option SkillData) :=
  if 4 ≤ row.length then
    let nameCell := row.getD SKILL_COL_SKILL_NAME Cell.blank
    let correct := skillCount (row.getD SKILL_COL_CORRECT Cell.blank)
    let total := skillCount (row.getD SKILL_COL_TOTAL Cell.blank)
    let accCell := row.getD SKILL_COL_ACCURACY Cell.blank
    match (if notna accCell then floatOfCell accCell else Except.ok 0) with
    | Except.error _ => Except.error ()
    | Except.ok acc0 =>
      let accuracy :=
        if 0 < total ∧ acc0 = 0 then round1 ((correct : ℚ) / (total : ℚ) * 100)
        else acc0
      Except.ok (some
        { name := pyStrip (cellStr nameCell), correct := correct, total := total
          accuracy := accuracy })
  else Except.ok none

/-- The skills appended for one file's rows: the fold stops at the first row
whose accuracy cell raises (rows appended before it are kept, the rest of
the file is skipped by the per-file exception handler). -/
def skillsOfRows : List (List Cell) → List SkillData
  | [] => []
  | row :: rest =>
    match skillOfRow (clean_row_data row) with
    | Except.error _ => []
    | Except.ok none => skillsOfRows rest
    | Except.ok (some s) => s :: skillsOfRows rest

/-- The classroom_data dictionary of get_reading_skills_data: the entry is
created as soon as a valid file of the classroom is seen (before its row
loop), then the file's skills are appended. -/
def addSkills (m : List ClassSkills) (k : String) (ss : List SkillData) :
    List ClassSkills :=
  match m with
  | [] => [{ classroom := k, skills := ss }]
  | c :: rest =>
    if c.classroom = k then { c with skills := c.skills ++ ss } :: rest
    else c :: addSkills rest k ss

/-- Per-file body of the reading-skills loop: a skipped file leaves the
dictionary unchanged; a filename without "_Skill_" is skipped; else the
classroom entry is created and the file's skills appended. -/
def processSkillFile (m : List ClassSkills) (f : XFile) : List ClassSkills :=
  if (fileRows f).isEmpty then m
  else if pyIn "_Skill_" f.name then
    addSkills m (pySplitHead "_Skill_" f.name) (skillsOfRows (fileRows f))
  else m

/-- Model of utils.get_reading_skills_data: None when no Skill file matches
or the dictionary stays empty; else the classroom skill lists sorted by
classroom name. -/
def get_reading_skills_data (files : List XFile) : Option (List ClassSkills) :=
  let fs := files.filter (fun f => matchesPattern "Skill" f.name)
  if fs.isEmpty then none
  else
    let m := (sortFiles fs).foldl processSkillFile []
    if m.isEmpty then none
    else some (sortBy (fun a b => pyLe a.classroom b.classroom) m)

/-! Model of utils.get_level_up_progress_data. -/

/-- One student entry of the level-up result (utils.py 1402-1408). -/
structure LevelUpStudent where
  student : String
  level : String
  progress : ℚ
deriving DecidableEq, Repr

/-- One classroom entry of the level-up result. -/
structure ClassLevelUp where
  classroom : String
  students : List LevelUpStudent
deriving DecidableEq, Repr

/-- The progress parse of utils.py 1391-1400: str(cell).strip(), drop every
"%" when one occurs, float() with 0.0 on failure. -/
def parseProgress (c : Cell) : ℚ :=
  let progress_str := pyStrip (cellStr c)
  let progress_str :=
    if pyIn "%" progress_str then pyRemoveChar '%' progress_str else progress_str
  match parseFloat? progress_str with
  | some q => q
  | none => 0

/-- Per-row body of the level-up loop: rows shorter than 8 cells are
skipped; else student/level are stripped strings of columns 5/6 and
progress the parsed column 7. -/
def levelUpOfRow (row : List Cell) : Option LevelUpStudent :=
  if 8 ≤ row.length then
    some
      { student := pyStrip (cellStr (row.getD LEVEL_UP_COL_STUDENT Cell.blank))
        level := pyStrip (cellStr (row.getD LEVEL_UP_COL_LEVEL Cell.blank))
        progress := parseProgress (row.getD LEVEL_UP_COL_PROGRESS Cell.blank) }
  else none

/-- The classroom_data dictionary of get_level_up_progress_data. -/
def addLevelUps (m : List ClassLevelUp) (k : String)
    (ss : List LevelUpStudent) : List ClassLevelUp :=
  match m with
  | [] => [{ classroom := k, students := ss }]
  | c :: rest =>
    if c.classroom = k then { c with students := c.students ++ ss } :: rest
    else c :: addLevelUps rest k ss

/-- Per-file body of the level-up loop. -/
def processLevelUpFile (m : List ClassLevelUp) (f : XFile) : List ClassLevelUp :=
  if (fileRows f).isEmpty then m
  else if pyIn "_Level Up Progress_" f.name then
    addLevelUps m (pySplitHead "_Level Up Progress_" f.name)
      (((fileRows f).map clean_row_data).filterMap levelUpOfRow)
  else m

/-- Model of utils.get_level_up_progress_data: None when no Level Up
Progress file matches or the dictionary stays empty; else each classroom's
students sorted alphabetically by student, classrooms sorted by name. -/
def get_level_up_progress_data (files : List XFile) : Option (List ClassLevelUp) :=
  let fs := files.filter (fun f => matchesPattern "Level Up Progress" f.name)
  if fs.isEmpty then none
  else
    let m := (sortFiles fs).foldl processLevelUpFile []
    if m.isEmpty then none
    else
      some (sortBy (fun a b => pyLe a.classroom b.classroom)
        (m.map (fun c =>
          { c with students := sortBy (fun a b => pyLe a.student b.student) c.students })))

/-! Models from src/excel_helpers.py. -/

/-- Model of excel_helpers.sanitize_sheet_name: truncate to 31 characters,
then replace each Excel-invalid character by an underscore. -/
def sanitize_sheet_name (name : String) : String :=
  ⟨(name.data.take EXCEL_MAX_SHEET_NAME_LENGTH).map
    (fun ch => if ch ∈ EXCEL_INVALID_SHEET_CHARS then '_' else ch)⟩

/-- The collision loop of make_unique_sheet_name (excel_helpers 217-233):
try base_counter for counter = 1, 2, ...; once the counter passes 999 give
up and return base_X. The base is the sanitized name truncated to 31 - 3
characters. -/
def uniqueNameLoop (sanitized : String) (existing_names : List String)
    (counter : ℕ) : String :=
  let base_name : String :=
    ⟨sanitized.data.take (EXCEL_MAX_SHEET_NAME_LENGTH - 3)⟩
  let unique_name := base_name ++ "_" ++ toString counter
  if unique_name ∈ existing_names then
    if 999 < counter + 1 then base_name ++ "_X"
    else uniqueNameLoop sanitized existing_names (counter + 1)
  else unique_name
termination_by 1000 - counter
decreasing_by omega

/-- Model of excel_helpers.make_unique_sheet_name: the sanitized proposed
name, run through the numeric-suffix loop when it collides with an existing
sheet name. -/
def make_unique_sheet_name (proposed_name : String)
    (existing_names : List String) : String :=
  let sanitized := sanitize_sheet_name proposed_name
  if sanitized ∈ existing_names then uniqueNameLoop sanitized existing_names 1
  else sanitized

/-- Model of excel_helpers.create_separator_row: a row of empty strings with
"User: username" in the first cell. -/
def create_separator_row (username : String) (num_columns : ℕ) : List Cell :=
  (List.replicate num_columns (Cell.str "")).set 0
    (Cell.str ("User: " ++ username))

/-- Model of excel_helpers.create_summary_row: a row of empty strings with
the label in the first cell and the value in the second. -/
def create_summary_row (label : String) (value : ℤ) (num_columns : ℕ) :
    List Cell :=
  ((List.replicate num_columns (Cell.str "")).set 0 (Cell.str label)).set 1
    (Cell.int value)

/-! Model of utils._create_combined_sheet and utils.combine_all_reports.
Cell styling, column widths and the Skill data bars are presentation only
and are not part of the data model. -/

/-- Mutable state of the per-file loop of _create_combined_sheet: the header
written once, the all_data rows, and the indices of the separator rows. -/
structure SheetAcc where
  header : Option (List Cell)
  data : List (List Cell)
  seps : List ℕ
deriving DecidableEq, Repr

/-- Per-file body of the _create_combined_sheet loop (utils.py 340-387): an
invalid file is skipped; the first valid file writes the headers; every
valid file appends a separator row labelled with the part of the filename
before the first underscore, then its cleaned data rows. -/
def sheetFileStep (acc : SheetAcc) (f : XFile) : SheetAcc :=
  match f.content with
  | none => acc
  | some t =>
    if t.rows.isEmpty then acc
    else
      let header := if acc.header.isNone then some t.header else acc.header
      let username := if pyIn "_" f.name then pySplitHead "_" f.name else f.name
      let data := acc.data ++ [create_separator_row username t.header.length]
      let seps := acc.seps ++ [data.length - 1]
      { header := header, data := data ++ t.rows.map clean_row_data, seps := seps }

/-- Separator-row detection of _add_student_usage_summary (utils.py
486-489): a nonempty row whose first cell's string starts with "User:". -/
def isSepRow (row : List Cell) : Bool :=
  ¬ row.isEmpty ∧ pyStartswith (cellStr (row.headD Cell.blank)) "User:"

/-- Model of openpyxl ws.max_column at summary time: the widest row written
so far (header plus all_data). -/
def maxCols (header : Option (List Cell)) (data : List (List Cell)) : ℕ :=
  ((match header with | some h => [h.length] | none => []) ++
    data.map List.length).foldl max 0

/-- Model of utils._add_student_usage_summary: totals over the non-separator
rows of all_data, teacher count = number of source files, written as a
spacer row plus six labelled summary rows. With fewer than two columns the
row[1] assignment of create_summary_row raises; the surrounding handler
swallows it, so only the already-appended spacer row remains. -/
def suSummaryRows (ncolsRaw : ℕ) (all_data : List (List Cell))
    (files : List XFile) : List (List Cell) :=
  let dataRows := all_data.filter (fun r => ¬ isSepRow r)
  let total_teachers : ℤ := files.length
  let total_students : ℤ := dataRows.length
  let total_listens := (dataRows.map (fun r => numAt r STUDENT_USAGE_COL_LISTEN)).sum
  let total_reads := (dataRows.map (fun r => numAt r STUDENT_USAGE_COL_READ)).sum
  let total_quizzes := (dataRows.map (fun r => numAt r STUDENT_USAGE_COL_QUIZ)).sum
  let total_activities := total_listens + total_reads + total_quizzes
  let num_cols := if ncolsRaw = 0 then 8 else ncolsRaw
  let spacer := List.replicate num_cols (Cell.str "")
  if num_cols < 2 then [spacer]
  else
    spacer ::
      [create_summary_row "Total Teachers" total_teachers num_cols,
       create_summary_row "Total Students" total_students num_cols,
       create_summary_row "Total Listens" (truncQ total_listens) num_cols,
       create_summary_row "Total Reads" (truncQ total_reads) num_cols,
       create_summary_row "Total Quizzes" (truncQ total_quizzes) num_cols,
       create_summary_row "Total" (truncQ total_activities) num_cols]

/-- One sheet of the combined workbook: its (unique) name, the header row,
the all_data rows, the separator-row indices into all_data, and the summary
rows appended for the Student Usage sheet. -/
structure CombinedSheet where
  name : String
  header : Option (List Cell)
  data : List (List Cell)
  separator_rows : List ℕ
  extra : List (List Cell)
deriving DecidableEq, Repr

/-- Model of utils._create_combined_sheet: the sheet is created in the
workbook first (under a collision-free name), the sorted files are folded
in, and the bool mirrors the source's return value - false when no usable
data was collected (the source returns None but the empty sheet stays in
the workbook). -/
def createCombinedSheet (existing_names : List String) (report_type : String)
    (files : List XFile) : CombinedSheet × Bool :=
  let sheet_name := make_unique_sheet_name report_type existing_names
  let acc := (sortFiles files).foldl sheetFileStep ⟨none, [], []⟩
  if acc.data.isEmpty then
    ({ name := sheet_name, header := acc.header, data := acc.data
       separator_rows := acc.seps, extra := [] }, false)
  else
    let extra :=
      if report_type = "Student Usage" then
        suSummaryRows (maxCols acc.header acc.data) acc.data files
      else []
    ({ name := sheet_name, header := acc.header, data := acc.data
       separator_rows := acc.seps, extra := extra }, true)

/-- Model of utils.combine_all_reports: group the directory's files by
report type (REPORT_TYPES order, a type with no match is dropped); None when
no type matches; else build one sheet per matched type and return the
workbook, or None when no sheet collected any data. -/
def combine_all_reports (files : List XFile) : Option (List CombinedSheet) :=
  let reports_by_type := REPORT_TYPES.filterMap (fun t =>
    let fs := files.filter (fun f => matchesPattern t f.name)
    if fs.isEmpty then none else some (t, fs))
  if reports_by_type.isEmpty then none
  else
    let result := reports_by_type.foldl
      (fun (st : List CombinedSheet × ℕ) tf =>
        (st.1 ++ [(createCombinedSheet (st.1.map (fun s => s.name)) tf.1 tf.2).1],
         st.2 + if (createCombinedSheet (st.1.map (fun s => s.name)) tf.1 tf.2).2
           then 1 else 0))
      ([], 0)
    if result.2 = 0 then none else some result.1

/-! Infrastructure lemmas about the stable sort and the string order. -/

/-- Sortedness with respect to a boolean relation. -/
def SortedBy (le : α → α → Bool) (l : List α) : Prop :=
  List.Pairwise (fun a b => le a b = true) l

theorem insertS_perm (le : α → α → Bool) (x : α) (l : List α) :
    (insertS le x l).Perm (x :: l) := by
  induction l with
  | nil => simp [insertS]
  | cons y ys ih =>
    simp only [insertS]
    by_cases h : le x y
    · simp [h]
    · simp only [h, if_neg, Bool.false_eq_true, if_false]
      exact ((ih.cons y).trans (List.Perm.swap x y ys))

theorem sortBy_perm (le : α → α → Bool) (l : List α) : (sortBy le l).Perm l := by
  induction l with
  | nil => simp [sortBy]
  | cons a t ih =>
    have : sortBy le (a :: t) = insertS le a (sortBy le t) := rfl
    rw [this]
    exact (insertS_perm le a (sortBy le t)).trans (ih.cons a)

theorem mem_sortBy {le : α → α → Bool} {x : α} {l : List α} :
    x ∈ sortBy le l ↔ x ∈ l :=
  (sortBy_perm le l).mem_iff

theorem insertS_sorted (le : α → α → Bool)
    (htrans : ∀ a b c, le a b = true → le b c = true → le a c = true)
    (htot : ∀ a b, le a b = true ∨ le b a = true)
    (x : α) (l : List α) (h : SortedBy le l) : SortedBy le (insertS le x l) := by
  induction l with
  | nil => exact List.pairwise_singleton _ x
  | cons y ys ih =>
    simp only [SortedBy, insertS] at h ⊢
    by_cases hxy : le x y = true
    · rw [if_pos hxy]
      refine List.pairwise_cons.mpr ⟨fun b hb => ?_, h⟩
      rcases List.mem_cons.mp hb with rfl | hb
      · exact hxy
      · exact htrans x y b hxy ((List.pairwise_cons.mp h).1 b hb)
    · rw [if_neg hxy]
      have hyx : le y x = true := (htot x y).resolve_left hxy
      refine List.pairwise_cons.mpr ⟨fun b hb => ?_, ih (List.pairwise_cons.mp h).2⟩
      rcases List.mem_cons.mp ((insertS_perm le x ys).mem_iff.mp hb) with rfl | hb
      · exact hyx
      · exact (List.pairwise_cons.mp h).1 b hb

theorem sortBy_sorted (le : α → α → Bool)
    (htrans : ∀ a b c, le a b = true → le b c = true → le a c = true)
    (htot : ∀ a b, le a b = true ∨ le b a = true)
    (l : List α) : SortedBy le (sortBy le l) := by
  induction l with
  | nil => exact List.Pairwise.nil
  | cons a t ih => exact insertS_sorted le htrans htot a (sortBy le t) ih

theorem sorted_eq_of_perm {le : α → α → Bool} :
    ∀ {l₁ l₂ : List α}, l₁.Perm l₂ → SortedBy le l₁ → SortedBy le l₂ →
    (∀ a b, a ∈ l₁ → b ∈ l₁ → le a b = true → le b a = true → a = b) →
    l₁ = l₂ := by
  intro l₁
  induction l₁ with
  | nil => intro l₂ hperm _ _ _; exact hperm.nil_eq
  | cons a t ih =>
    intro l₂ hperm hs₁ hs₂ hanti
    match l₂, hperm with
    | [], hperm => exact absurd hperm.symm.nil_eq (by simp)
    | b :: t₂, hperm =>
      have hab : a = b := by
        by_cases hba : b = a
        · exact hba.symm
        · have hbmem : b ∈ a :: t := hperm.symm.mem_iff.mp (List.mem_cons_self b t₂)
          have hbt : b ∈ t := by
            rcases List.mem_cons.mp hbmem with h | h
            · exact absurd h hba
            · exact h
          have hamem : a ∈ b :: t₂ := hperm.mem_iff.mp (List.mem_cons_self a t)
          have hat : a ∈ t₂ := by
            rcases List.mem_cons.mp hamem with h | h
            · exact absurd h.symm hba
            · exact h
          have h1 : le a b = true := (List.pairwise_cons.mp hs₁).1 b hbt
          have h2 : le b a = true := (List.pairwise_cons.mp hs₂).1 a hat
          exact hanti a b (List.mem_cons_self a t) hbmem h1 h2
      subst hab
      have ht : t.Perm t₂ := hperm.cons_inv
      have : t = t₂ :=
        ih ht (List.pairwise_cons.mp hs₁).2 (List.pairwise_cons.mp hs₂).2
          (fun x y hx hy => hanti x y (List.mem_cons_of_mem a hx)
            (List.mem_cons_of_mem a hy))
      rw [this]

theorem pyLeChars_total : ∀ a b, pyLeChars a b = true ∨ pyLeChars b a = true := by
  intro a
  induction a with
  | nil => intro b; left; cases b <;> rfl
  | cons x xs ih =>
    intro b
    cases b with
    | nil => right; rfl
    | cons y ys =>
      simp only [pyLeChars]
      rcases Nat.lt_trichotomy x.toNat y.toNat with h | h | h
      · left; simp [h]
      · have h1 : ¬ x.toNat < y.toNat := by omega
        have h2 : ¬ y.toNat < x.toNat := by omega
        simp only [h1, h2, if_false]
        exact ih ys
      · right; simp [h]

theorem pyLeChars_trans :
    ∀ a b c, pyLeChars a b = true → pyLeChars b c = true → pyLeChars a c = true := by
  intro a
  induction a with
  | nil => intro b c _ _; cases c <;> rfl
  | cons x xs ih =>
    intro b c hab hbc
    cases b with
    | nil => simp [pyLeChars] at hab
    | cons y ys =>
      cases c with
      | nil => simp [pyLeChars] at hbc
      | cons z zs =>
        simp only [pyLeChars] at hab hbc ⊢
        rcases Nat.lt_trichotomy x.toNat z.toNat with h | h | h
        · simp [h]
        · have h1 : ¬ x.toNat < z.toNat := by omega
          have h2 : ¬ z.toNat < x.toNat := by omega
          simp only [h1, h2, if_false]
          by_cases hxy : x.toNat < y.toNat
          · by_cases hyz : y.toNat < z.toNat
            · omega
            · by_cases hzy : z.toNat < y.toNat
              · simp [hyz, hzy] at hbc
              · omega
          · by_cases hyx : y.toNat < x.toNat
            · simp [hxy, hyx] at hab
            · by_cases hyz : y.toNat < z.toNat
              · omega
              · by_cases hzy : z.toNat < y.toNat
                · simp [hyz, hzy] at hbc
                · have hxy2 : ¬ x.toNat < y.toNat := by omega
                  have hyx2 : ¬ y.toNat < x.toNat := by omega
                  simp only [hxy2, hyx2, if_false] at hab
                  have hyz2 : ¬ y.toNat < z.toNat := by omega
                  have hzy2 : ¬ z.toNat < y.toNat := by omega
                  simp only [hyz2, hzy2, if_false] at hbc
                  exact ih ys zs hab hbc
        · exfalso
          by_cases hxy : x.toNat < y.toNat
          · by_cases hyz : y.toNat < z.toNat
            · omega
            · by_cases hzy : z.toNat < y.toNat
              · simp [hyz, hzy] at hbc
              · omega
          · by_cases hyx : y.toNat < x.toNat
            · simp [hxy, hyx] at hab
            · by_cases hyz : y.toNat < z.toNat
              · omega
              · by_cases hzy : z.toNat < y.toNat
                · simp [hyz, hzy] at hbc
                · omega

theorem pyLeChars_antisymm :
    ∀ a b, pyLeChars a b = true → pyLeChars b a = true → a = b := by
  intro a
  induction a with
  | nil => intro b hab _; cases b with
    | nil => rfl
    | cons y ys => simp [pyLeChars] at *
  | cons x xs ih =>
    intro b hab hba
    cases b with
    | nil => simp [pyLeChars] at hab
    | cons y ys =>
      simp only [pyLeChars] at hab hba
      by_cases hxy : x.toNat < y.toNat
      · have : ¬ y.toNat < x.toNat := by omega
        simp [hxy, this] at hba
      · by_cases hyx : y.toNat < x.toNat
        · simp [hxy, hyx] at hab
        · have hx : x = y := by
            have : x.toNat = y.toNat := by omega
            calc x = Char.ofNat x.toNat := (Char.ofNat_toNat x).symm
              _ = Char.ofNat y.toNat := by rw [this]
              _ = y := Char.ofNat_toNat y
          simp only [hxy, hyx, if_false] at hab hba
          rw [hx, ih ys hab hba]

theorem pyLe_total (a b : String) : pyLe a b = true ∨ pyLe b a = true :=
  pyLeChars_total a.data b.data

theorem pyLe_trans (a b c : String) :
    pyLe a b = true → pyLe b c = true → pyLe a c = true :=
  pyLeChars_trans a.data b.data c.data

theorem pyLe_antisymm (a b : String) :
    pyLe a b = true → pyLe b a = true → a = b := by
  intro h1 h2
  have := pyLeChars_antisymm a.data b.data h1 h2
  exact congrArg String.mk this

/-! Invariants of the classroom-summary fold. -/

theorem updateClass_mem_inv {P : ClassSum → Prop} {R : List Cell → Prop}
    (hadd : ∀ c row, R row → P c → P (addRow c row))
    (hnew : ∀ k row, R row → P (addRow (initClass k) row))
    {k : String} {row : List Cell} (hr : R row) :
    ∀ m : List ClassSum, (∀ c ∈ m, P c) → ∀ c ∈ updateClass m k row, P c := by
  intro m
  induction m with
  | nil =>
    intro _ c hc
    simp only [updateClass, List.mem_singleton] at hc
    subst hc
    exact hnew k row hr
  | cons c0 rest ih =>
    intro hm c hc
    simp only [updateClass] at hc
    by_cases h0 : c0.name = k
    · rw [if_pos h0] at hc
      rcases List.mem_cons.mp hc with rfl | hc
      · exact hadd c0 row hr (hm c0 (List.mem_cons_self c0 rest))
      · exact hm c (List.mem_cons_of_mem c0 hc)
    · rw [if_neg h0] at hc
      rcases List.mem_cons.mp hc with rfl | hc
      · exact hm c (List.mem_cons_self c rest)
      · exact ih (fun x hx => hm x (List.mem_cons_of_mem c0 hx)) c hc

theorem foldlRows_mem_inv {P : ClassSum → Prop} {R : List Cell → Prop}
    (hadd : ∀ c row, R row → P c → P (addRow c row))
    (hnew : ∀ k row, R row → P (addRow (initClass k) row)) {k : String} :
    ∀ (rows : List (List Cell)) (m : List ClassSum),
      (∀ c ∈ m, P c) → (∀ row ∈ rows, R row) →
      ∀ c ∈ rows.foldl (fun m' row => updateClass m' k row) m, P c := by
  intro rows
  induction rows with
  | nil => intro m hm _ c hc; exact hm c hc
  | cons r rs ih =>
    intro m hm hr c hc
    simp only [List.foldl_cons] at hc
    exact ih (updateClass m k r)
      (updateClass_mem_inv hadd hnew (hr r (List.mem_cons_self r rs)) m hm)
      (fun row h => hr row (List.mem_cons_of_mem r h)) c hc

theorem foldlFiles_mem_inv {P : ClassSum → Prop} {R : List Cell → Prop}
    (hadd : ∀ c row, R row → P c → P (addRow c row))
    (hnew : ∀ k row, R row → P (addRow (initClass k) row)) :
    ∀ (fs : List XFile) (m : List ClassSum),
      (∀ c ∈ m, P c) →
      (∀ f ∈ fs, ∀ row ∈ (fileRows f).map clean_row_data, R row) →
      ∀ c ∈ fs.foldl processSUFile m, P c := by
  intro fs
  induction fs with
  | nil => intro m hm _ c hc; exact hm c hc
  | cons f rest ih =>
    intro m hm hr c hc
    simp only [List.foldl_cons] at hc
    have hstep : ∀ c ∈ processSUFile m f, P c := by
      intro x hx
      simp only [processSUFile] at hx
      exact foldlRows_mem_inv hadd hnew ((fileRows f).map clean_row_data) m hm
        (fun row h => hr f (List.mem_cons_self f rest) row h) x hx
    exact ih (processSUFile m f) hstep
      (fun g hg row h => hr g (List.mem_cons_of_mem f hg) row h) c hc

/-- Extraction of the final branch of get_classroom_summaries. -/
theorem get_classroom_summaries_some {files : List XFile} {out : List ClassSum}
    (h : get_classroom_summaries files = some out) :
    out = sortBy (fun a b => pyLe a.name b.name)
      (((sortFiles (studentUsageFiles files)).foldl processSUFile []).map
        finalizeUsage) := by
  simp only [get_classroom_summaries] at h
  split_ifs at h with h1 h2
  exact (Option.some_inj.mp h).symm

theorem count_inv_of_summaries {files : List XFile} {out : List ClassSum}
    (h : get_classroom_summaries files = some out) :
    ∀ c ∈ out, ∃ c₀, c = finalizeUsage c₀ ∧
      c₀.students_used ≤ c₀.students ∧ 1 ≤ c₀.students ∧
      c₀ ∈ (sortFiles (studentUsageFiles files)).foldl processSUFile [] := by
  intro c hc
  rw [get_classroom_summaries_some h] at hc
  rcases List.mem_map.mp (mem_sortBy.mp hc) with ⟨c₀, hc₀, rfl⟩
  refine ⟨c₀, rfl, ?_, ?_, hc₀⟩
  · exact (foldlFiles_mem_inv (P := fun c => c.students_used ≤ c.students ∧ 1 ≤ c.students)
      (R := fun _ => True)
      (fun c row _ hP => by
        simp only [addRow]
        constructor
        · by_cases hu : 0 < numAt row STUDENT_USAGE_COL_LISTEN ∨
              0 < numAt row STUDENT_USAGE_COL_READ ∨ 0 < numAt row STUDENT_USAGE_COL_QUIZ
          · rw [if_pos hu]; omega
          · rw [if_neg hu]; omega
        · omega)
      (fun k row _ => by
        simp only [addRow, initClass]
        constructor
        · split <;> omega
        · omega)
      _ [] (by intro c hc; cases hc) (fun _ _ _ _ => trivial) c₀ hc₀).1
  · exact (foldlFiles_mem_inv (P := fun c => c.students_used ≤ c.students ∧ 1 ≤ c.students)
      (R := fun _ => True)
      (fun c row _ hP => by
        simp only [addRow]
        constructor
        · by_cases hu : 0 < numAt row STUDENT_USAGE_COL_LISTEN ∨
              0 < numAt row STUDENT_USAGE_COL_READ ∨ 0 < numAt row STUDENT_USAGE_COL_QUIZ
          · rw [if_pos hu]; omega
          · rw [if_neg hu]; omega
        · omega)
      (fun k row _ => by
        simp only [addRow, initClass]
        constructor
        · split <;> omega
        · omega)
      _ [] (by intro c hc; cases hc) (fun _ _ _ _ => trivial) c₀ hc₀).2

theorem numAt_nonneg_of_cells {row : List Cell}
    (h : ∀ c ∈ row, 0 ≤ cellVal c) : ∀ i, 0 ≤ numAt row i := by
  intro i
  unfold numAt
  by_cases hi : i < row.length
  · refine h _ ?_
    rw [List.getD_eq_getElem row Cell.blank hi]
    exact List.getElem_mem hi
  · rw [List.getD_eq_default row Cell.blank (by omega)]
    norm_num [cellVal, notna]

theorem round1_nonneg (q : ℚ) (h0 : 0 ≤ q) : 0 ≤ round1 q := by
  unfold round1
  rw [round_eq]
  apply div_nonneg _ (by norm_num)
  have h : (0 : ℤ) ≤ ⌊q * 10 + 1 / 2⌋ := Int.le_floor.mpr (by push_cast; linarith)
  exact_mod_cast h

theorem round1_le_100 (q : ℚ) (h1 : q ≤ 100) : round1 q ≤ 100 := by
  unfold round1
  rw [round_eq]
  have h : ⌊q * 10 + 1 / 2⌋ ≤ 1000 := by
    have hlt : ⌊q * 10 + 1 / 2⌋ < 1001 := Int.floor_lt.mpr (by push_cast; linarith)
    omega
  have h2 : ((⌊q * 10 + 1 / 2⌋ : ℤ) : ℚ) ≤ 1000 := by exact_mod_cast h
  linarith

/-- C2: every classroom summary has usage in [0, 100] equal to
round(students_used / students * 100, 1) (usage 0 for an impossible
student count of 0), and all count fields are nonnegative whenever every
source cell value reads as a nonnegative number. -/
theorem claim_C2 (files : List XFile) (out : List ClassSum)
    (h : get_classroom_summaries files = some out) :
    (∀ c ∈ out,
      (c.students = 0 → c.usage = 0) ∧
      c.usage = round1 ((c.students_used : ℚ) / (c.students : ℚ) * 100) ∧
      0 ≤ c.usage ∧ c.usage ≤ 100) ∧
    ((∀ f ∈ files, ∀ row ∈ fileRows f, ∀ c ∈ clean_row_data row, 0 ≤ cellVal c) →
      ∀ c ∈ out, 0 ≤ c.listen ∧ 0 ≤ c.read ∧ 0 ≤ c.quiz ∧
        0 ≤ c.interactivity ∧ 0 ≤ c.practice_recording) := by
  constructor
  · intro c hc
    rcases count_inv_of_summaries h c hc with ⟨c₀, rfl, hus, hs, _⟩
    have hpos : 0 < c₀.students := hs
    have hfin : finalizeUsage c₀ =
        { c₀ with usage := round1 ((c₀.students_used : ℚ) / (c₀.students : ℚ) * 100) } := by
      unfold finalizeUsage
      rw [if_pos hpos]
    rw [hfin]
    have hratio0 : 0 ≤ (c₀.students_used : ℚ) / (c₀.students : ℚ) * 100 := by
      apply mul_nonneg _ (by norm_num)
      exact div_nonneg (by exact_mod_cast Nat.zero_le _) (by exact_mod_cast Nat.zero_le _)
    have hratio1 : (c₀.students_used : ℚ) / (c₀.students : ℚ) * 100 ≤ 100 := by
      have hden : (0 : ℚ) < (c₀.students : ℚ) := by exact_mod_cast hpos
      have : (c₀.students_used : ℚ) / (c₀.students : ℚ) ≤ 1 := by
        rw [div_le_one hden]
        exact_mod_cast hus
      linarith
    refine ⟨fun h0 => absurd h0 hpos.ne', rfl, ?_, ?_⟩
    · exact round1_nonneg _ hratio0
    · exact round1_le_100 _ hratio1
  · intro hcells c hc
    rcases List.mem_map.mp
      (mem_sortBy.mp ((get_classroom_summaries_some h) ▸ hc)) with ⟨c₀, hc₀, rfl⟩
    have hinv := foldlFiles_mem_inv
      (P := fun c => 0 ≤ c.listen ∧ 0 ≤ c.read ∧ 0 ≤ c.quiz ∧
        0 ≤ c.interactivity ∧ 0 ≤ c.practice_recording)
      (R := fun row => ∀ c ∈ row, 0 ≤ cellVal c)
      (fun c row hR hP => by
        have hn := numAt_nonneg_of_cells hR
        simp only [addRow]
        refine ⟨?_, ?_, ?_, ?_, ?_⟩ <;>
          first
            | exact add_nonneg hP.1 (hn _)
            | exact add_nonneg hP.2.1 (hn _)
            | exact add_nonneg hP.2.2.1 (hn _)
            | exact add_nonneg hP.2.2.2.1 (hn _)
            | exact add_nonneg hP.2.2.2.2 (hn _))
      (fun k row hR => by
        have hn := numAt_nonneg_of_cells hR
        simp only [addRow, initClass]
        refine ⟨?_, ?_, ?_, ?_, ?_⟩ <;> simpa using hn _)
      (sortFiles (studentUsageFiles files)) [] (by intro x hx; cases hx)
      (fun f hf row hrow => by
        rcases List.mem_map.mp hrow with ⟨r, hr, rfl⟩
        have hfmem : f ∈ files :=
          (List.mem_filter.mp (mem_sortBy.mp hf)).1
        exact hcells f hfmem r hr)
      c₀ hc₀
    have hfin : ∀ c : ClassSum, (finalizeUsage c).listen = c.listen ∧
        (finalizeUsage c).read = c.read ∧ (finalizeUsage c).quiz = c.quiz ∧
        (finalizeUsage c).interactivity = c.interactivity ∧
        (finalizeUsage c).practice_recording = c.practice_recording := by
      intro c
      unfold finalizeUsage
      split <;> exact ⟨rfl, rfl, rfl, rfl, rfl⟩
    rcases hfin c₀ with ⟨e1, e2, e3, e4, e5⟩
    rw [e1, e2, e3, e4, e5]
    exact hinv

/-! Concrete fixtures used by the witnesses. -/

/-- Header row of a Student Usage fixture file. -/
def suHeaderW : List Cell :=
  [Cell.str "Student Name", Cell.str "Classroom", Cell.str "District ID",
   Cell.str "Grade", Cell.str "Teacher", Cell.str "Listen", Cell.str "Read",
   Cell.str "Quiz", Cell.str "Interactivity", Cell.str "Practice Recording"]

/-- One Student Usage data row: listen 5, read 3, quiz 2, interactivity 1. -/
def suRowW : List Cell :=
  [Cell.str "S1", Cell.str "C", Cell.str "D", Cell.str "G", Cell.str "T",
   Cell.int 5, Cell.int 3, Cell.int 2, Cell.int 1, Cell.int 0]

/-- A valid one-row Student Usage file for classroom ClassA. -/
def suFileW : XFile :=
  ⟨"ClassA_Student Usage_x.xlsx", some ⟨suHeaderW, [suRowW]⟩⟩

/-- The classroom summary the fixture produces. -/
def outC2W : ClassSum :=
  { name := "ClassA", students := 1, students_used := 1, listen := 5, read := 3
    quiz := 2, interactivity := 1, practice_recording := 0, usage := 100 }

theorem claim_C2_witness :
    get_classroom_summaries [suFileW] = some [outC2W] ∧
    (0 ≤ outC2W.usage ∧ outC2W.usage ≤ 100) ∧ 0 ≤ outC2W.listen := by
  have h := claim_C2 [suFileW] [outC2W] (by decide)
  exact ⟨by decide, ⟨(h.1 outC2W (by decide)).2.2.1, (h.1 outC2W (by decide)).2.2.2⟩,
    (h.2 (by decide) outC2W (by decide)).1⟩

/-! Claim C4: top readers. -/

theorem get_top_readers_some {files : List XFile} {out : List ClassTopReaders}
    (h : get_top_readers_per_classroom files = some out) :
    out = sortBy (fun a b => pyLe a.name b.name)
      (((sortFiles (studentUsageFiles files)).foldl processTopFile []).filterMap
        (fun e => topOfClassroom e.1 e.2)) := by
  simp only [get_top_readers_per_classroom] at h
  split_ifs at h
  exact (Option.some_inj.mp h).symm

/-- C4: the top-readers output never lists a student with score 0 (every
listed score is positive), never more than 3 students per classroom, and a
classroom whose students all have score 0 is absent - every listed
classroom keeps at least one (positive-score) student. -/
theorem claim_C4 (files : List XFile) (out : List ClassTopReaders)
    (h : get_top_readers_per_classroom files = some out) :
    ∀ e ∈ out, e.students ≠ [] ∧ e.students.length ≤ 3 ∧
      ∀ s ∈ e.students, 0 < s.score := by
  intro e he
  rw [get_top_readers_some h] at he
  rcases List.mem_filterMap.mp (mem_sortBy.mp he) with ⟨⟨k, students⟩, _, htop⟩
  simp only [topOfClassroom] at htop
  by_cases hv : (students.filter (fun s => decide (0 < s.score))).isEmpty
  · rw [if_pos hv] at htop
    cases htop
  · rw [if_neg hv] at htop
    rcases Option.some_inj.mp htop with rfl
    refine ⟨?_, ?_, ?_⟩
    · have hlen : 0 < (students.filter (fun s => decide (0 < s.score))).length :=
        List.length_pos.mpr (fun hnil => hv (by rw [hnil]; rfl))
      have hslen : 0 < (sortBy (fun a b => decide (b.score ≤ a.score))
          (students.filter (fun s => decide (0 < s.score)))).length := by
        rw [(sortBy_perm _ _).length_eq]
        exact hlen
      intro hnil
      have := congrArg List.length hnil
      simp only [List.length_take, List.length_nil] at this
      omega
    · simp only [List.length_take]
      omega
    · intro s hs
      have hs2 := mem_sortBy.mp (List.mem_of_mem_take hs)
      have := (List.mem_filter.mp hs2).2
      exact of_decide_eq_true this

/-- Top-readers entry the Student Usage fixture produces. -/
def topW : ClassTopReaders := ⟨"ClassA", [⟨"S1", 8⟩]⟩

theorem claim_C4_witness :
    get_top_readers_per_classroom [suFileW] = some [topW] ∧
    topW.students ≠ [] ∧ topW.students.length ≤ 3 ∧
    (0 : ℚ) < (StudentScore.mk "S1" 8).score := by
  have h := claim_C4 [suFileW] [topW] (by decide)
  exact ⟨by decide, (h topW (by decide)).1, (h topW (by decide)).2.1,
    (h topW (by decide)).2.2 (StudentScore.mk "S1" 8) (by decide)⟩

/-! Claim C10: classroom comparison data. -/

theorem get_classroom_summaries_sorted {files : List XFile} {out : List ClassSum}
    (h : get_classroom_summaries files = some out) :
    List.Pairwise (fun a b : ClassSum => pyLe a.name b.name = true) out := by
  rw [get_classroom_summaries_some h]
  exact sortBy_sorted _ (fun (a b c : ClassSum) => pyLe_trans a.name b.name c.name)
    (fun (a b : ClassSum) => pyLe_total a.name b.name) _

theorem get_classroom_summaries_ne_some_nil (files : List XFile) :
    get_classroom_summaries files ≠ some [] := by
  intro h
  have hform := get_classroom_summaries_some h
  simp only [get_classroom_summaries] at h
  split_ifs at h with h1 h2
  have hm := List.isEmpty_iff.not.mp h2
  have hlen := congrArg List.length hform.symm
  rw [(sortBy_perm _ _).length_eq, List.length_map, List.length_nil] at hlen
  exact hm (List.length_eq_zero.mp hlen)

/-- C10: the comparison view is None exactly when the classroom summaries
are None; otherwise its four lists are the name/listen/read/quiz columns of
the same summary list (hence equal lengths, and index i of each list
describes classroom i), and the labels are sorted ascending. -/
theorem claim_C10 (files : List XFile) :
    (get_classroom_comparison_data files = none ↔
      get_classroom_summaries files = none) ∧
    (∀ d, get_classroom_comparison_data files = some d →
      ∃ out, get_classroom_summaries files = some out ∧
        d.labels = out.map ClassSum.name ∧ d.listen = out.map ClassSum.listen ∧
        d.read = out.map ClassSum.read ∧ d.quiz = out.map ClassSum.quiz ∧
        d.labels.length = d.listen.length ∧ d.labels.length = d.read.length ∧
        d.labels.length = d.quiz.length ∧
        List.Pairwise (fun a b => pyLe a b = true) d.labels) := by
  constructor
  · constructor
    · intro h
      cases hs : get_classroom_summaries files with
      | none => rfl
      | some l =>
        simp only [get_classroom_comparison_data, hs] at h
        by_cases hl : l.isEmpty
        · exact absurd (List.isEmpty_iff.mp hl ▸ hs)
            (get_classroom_summaries_ne_some_nil files)
        · rw [if_neg hl] at h
          cases h
    · intro h
      simp only [get_classroom_comparison_data, h]
  · intro d hd
    cases hs : get_classroom_summaries files with
    | none => simp only [get_classroom_comparison_data, hs] at hd; cases hd
    | some l =>
      simp only [get_classroom_comparison_data, hs] at hd
      by_cases hl : l.isEmpty
      · rw [if_pos hl] at hd; cases hd
      · rw [if_neg hl] at hd
        rcases Option.some_inj.mp hd with rfl
        refine ⟨l, rfl, rfl, rfl, rfl, rfl, ?_, ?_, ?_, ?_⟩
        · simp
        · simp
        · simp
        · exact (get_classroom_summaries_sorted hs).map ClassSum.name
            (fun a b hab => hab)

/-! Claim C6: level-up progress. -/

theorem breakOnSub_single_none {t : Char} :
    ∀ {l : List Char}, breakOnSub [t] l = none → t ∉ l := by
  intro l
  induction l with
  | nil => intro _ h; cases h
  | cons c rest ih =>
    intro h
    simp only [breakOnSub] at h
    by_cases htc : [t].isPrefixOf (c :: rest)
    · rw [if_pos htc] at h; cases h
    · rw [if_neg htc] at h
      have htne : t ≠ c := by
        intro he
        exact htc (by simp [List.isPrefixOf, he])
      intro hmem
      rcases List.mem_cons.mp hmem with rfl | hmem
      · exact htne rfl
      · cases hb : breakOnSub [t] rest with
        | some p => rw [hb] at h; cases h
        | none => exact ih hb hmem

theorem parseProgress_eq (c : Cell) :
    parseProgress c =
      (parseFloat? (pyRemoveChar '%' (pyStrip (cellStr c)))).getD 0 := by
  simp only [parseProgress]
  by_cases h : pyIn "%" (pyStrip (cellStr c))
  · rw [if_pos h]
    cases parseFloat? (pyRemoveChar '%' (pyStrip (cellStr c))) <;> rfl
  · rw [if_neg h]
    have hnone : breakOnSub "%".data (pyStrip (cellStr c)).data = none := by
      have := Option.not_isSome_iff_eq_none.mp (by simpa [pyIn] using h)
      exact this
    have hid : pyRemoveChar '%' (pyStrip (cellStr c)) = pyStrip (cellStr c) := by
      unfold pyRemoveChar
      refine congrArg String.mk (List.filter_eq_self.mpr ?_)
      intro a ha
      have : ('%' : Char) ∉ (pyStrip (cellStr c)).data := breakOnSub_single_none hnone
      simp only [decide_eq_true_eq]
      intro he
      exact this (he ▸ ha)
    rw [hid]
    cases parseFloat? (pyStrip (cellStr c)) <;> rfl

theorem get_level_up_some {files : List XFile} {out : List ClassLevelUp}
    (h : get_level_up_progress_data files = some out) :
    out = sortBy (fun a b => pyLe a.classroom b.classroom)
      (((sortFiles (files.filter
          (fun f => matchesPattern "Level Up Progress" f.name))).foldl
        processLevelUpFile []).map
        (fun c => { c with
          students := sortBy (fun a b => pyLe a.student b.student) c.students })) := by
  simp only [get_level_up_progress_data] at h
  split_ifs at h
  exact (Option.some_inj.mp h).symm

/-- C6: a Level Up Progress cell is parsed by stripping "%" and converting
to float with 0.0 on failure ("45%" gives 45.0, "N/A" gives 0.0), and every
classroom's student list in the output is sorted alphabetically by student
name. -/
theorem claim_C6 :
    parseProgress (Cell.str "45%") = 45 ∧
    parseProgress (Cell.str "N/A") = 0 ∧
    (∀ c, parseProgress c =
      (parseFloat? (pyRemoveChar '%' (pyStrip (cellStr c)))).getD 0) ∧
    (∀ files out, get_level_up_progress_data files = some out →
      ∀ cd ∈ out,
        List.Pairwise (fun a b => pyLe a.student b.student = true) cd.students) := by
  refine ⟨by decide, by decide, parseProgress_eq, ?_⟩
  intro files out h cd hcd
  rw [get_level_up_some h] at hcd
  rcases List.mem_map.mp (mem_sortBy.mp hcd) with ⟨c₀, _, rfl⟩
  exact sortBy_sorted _
    (fun (a b c : LevelUpStudent) => pyLe_trans a.student b.student c.student)
    (fun (a b : LevelUpStudent) => pyLe_total a.student b.student) c₀.students

/-! Claim C5: skill accuracy. -/

/-- A valid one-row Skill file for classroom C1 with correct 8, total 10 and
a zero accuracy cell. -/
def skFileW : XFile :=
  ⟨"C1_Skill_x.xlsx",
   some ⟨[Cell.str "Skill", Cell.str "Correct", Cell.str "Total", Cell.str "Accuracy"],
     [[Cell.str "Phonics", Cell.int 8, Cell.int 10, Cell.int 0]]⟩⟩

/-- A one-row Skill file whose accuracy cell is absent (NaN). -/
def skBlankW : XFile :=
  ⟨"C1_Skill_x.xlsx",
   some ⟨[Cell.str "Skill", Cell.str "Correct", Cell.str "Total", Cell.str "Accuracy"],
     [[Cell.str "Phonics", Cell.int 8, Cell.int 10, Cell.blank]]⟩⟩

/-- C5 counterexample: a Skill row with correct 8, total 10 and an absent
accuracy cell - total is positive, so the claim requires the derived
accuracy 80.0 - but row cleaning turns the cell into the empty string, the
unguarded float('') raises, and the row is dropped: no skill is produced
and the classroom's skill list stays empty. -/
theorem claim_C5_counterexample :
    skillOfRow (clean_row_data
      [Cell.str "Phonics", Cell.int 8, Cell.int 10, Cell.blank]) =
      Except.error () ∧
    get_reading_skills_data [skBlankW] = some [⟨"C1", []⟩] :=
  ⟨by rfl, by rfl⟩

/-- C5 (amended): for every Skill row whose accuracy cell reads as a number
(the guarded float() read succeeds), the aggregator takes that value when
it is non-zero, derives
round(correct / total * 100, 1) when the value is 0 and total is positive,
and leaves 0 when total is 0; in particular correct 8, total 10, accuracy 0
yields 80.0, and an all-zero row keeps accuracy 0. When the accuracy cell
is absent or unparsable, float() raises instead: the row produces no skill
and the rest of its file is dropped, rather than the derived accuracy. -/
theorem claim_C5_amended :
    (∀ row s a, skillOfRow row = Except.ok (some s) →
      (if notna (row.getD SKILL_COL_ACCURACY Cell.blank) then
          floatOfCell (row.getD SKILL_COL_ACCURACY Cell.blank)
        else Except.ok 0) = Except.ok a →
      (a ≠ 0 → s.accuracy = a) ∧
      (a = 0 → 0 < s.total →
        s.accuracy = round1 ((s.correct : ℚ) / (s.total : ℚ) * 100)) ∧
      (a = 0 → s.total ≤ 0 → s.accuracy = 0)) ∧
    (∀ row, 4 ≤ row.length →
      (if notna (row.getD SKILL_COL_ACCURACY Cell.blank) then
          floatOfCell (row.getD SKILL_COL_ACCURACY Cell.blank)
        else Except.ok 0) = Except.error () →
      skillOfRow row = Except.error ()) ∧
    skillOfRow [Cell.str "Phonics", Cell.int 8, Cell.int 10, Cell.int 0] =
      Except.ok (some ⟨"Phonics", 8, 10, 80⟩) ∧
    skillOfRow [Cell.str "Sight Words", Cell.int 0, Cell.int 0, Cell.int 0] =
      Except.ok (some ⟨"Sight Words", 0, 0, 0⟩) ∧
    get_reading_skills_data [skFileW] =
      some [⟨"C1", [⟨"Phonics", 8, 10, 80⟩]⟩] := by
  refine ⟨?_, ?_, by rfl, by rfl, by decide⟩
  case refine_2 =>
    intro row hlen herr
    simp only [skillOfRow]
    rw [if_pos hlen, herr]
  intro row s a h ha
  simp only [skillOfRow] at h
  by_cases hlen : 4 ≤ row.length
  · rw [if_pos hlen, ha] at h
    simp only [Except.ok.injEq, Option.some.injEq] at h
    subst h
    refine ⟨?_, ?_, ?_⟩
    · intro hane
      simp only
      rw [if_neg (fun hc => hane hc.2)]
    · intro ha0 htot
      simp only at htot ⊢
      rw [if_pos ⟨htot, ha0⟩]
    · intro ha0 htot
      simp only at htot ⊢
      rw [if_neg (fun hc => absurd hc.1 (by omega))]
      exact ha0
  · rw [if_neg hlen] at h
    cases h

/-! Claim C1: school summary. -/

theorem get_school_summary_some {files : List XFile} {s : SchoolSummary}
    (h : get_school_summary files = some s) :
    s = { all_teachers := (studentUsageFiles files).length
          all_students := (schoolAllData files).length
          total_listen := truncQ (((schoolAllData files).map
            (fun r => numAt r STUDENT_USAGE_COL_LISTEN)).sum)
          total_read := truncQ (((schoolAllData files).map
            (fun r => numAt r STUDENT_USAGE_COL_READ)).sum)
          total_quizzes := truncQ (((schoolAllData files).map
            (fun r => numAt r STUDENT_USAGE_COL_QUIZ)).sum)
          total_activities := truncQ
            ((((schoolAllData files).map
              (fun r => numAt r STUDENT_USAGE_COL_LISTEN)).sum) +
             (((schoolAllData files).map
              (fun r => numAt r STUDENT_USAGE_COL_READ)).sum) +
             (((schoolAllData files).map
              (fun r => numAt r STUDENT_USAGE_COL_QUIZ)).sum)) } := by
  simp only [get_school_summary] at h
  split_ifs at h
  exact (Option.some_inj.mp h).symm

theorem truncQ_intCast (z : ℤ) : truncQ (z : ℚ) = z := by
  unfold truncQ
  split
  · exact Int.floor_intCast z
  · exact Int.ceil_intCast z

theorem sum_int_of_den_one {l : List ℚ} (h : ∀ q ∈ l, q.den = 1) :
    ∃ z : ℤ, l.sum = (z : ℚ) := by
  induction l with
  | nil => exact ⟨0, by simp⟩
  | cons q rest ih =>
    rcases ih (fun x hx => h x (List.mem_cons_of_mem q hx)) with ⟨z, hz⟩
    refine ⟨q.num + z, ?_⟩
    have hq : (q.num : ℚ) = q := Rat.den_eq_one_iff q |>.mp (h q (List.mem_cons_self q rest))
    rw [List.sum_cons, hz, Int.cast_add, hq]

theorem numAt_den_one_of_cells {row : List Cell}
    (h : ∀ c ∈ row, (cellVal c).den = 1) : ∀ i, (numAt row i).den = 1 := by
  intro i
  unfold numAt
  by_cases hi : i < row.length
  · refine h _ ?_
    rw [List.getD_eq_getElem row Cell.blank hi]
    exact List.getElem_mem hi
  · rw [List.getD_eq_default row Cell.blank (by omega)]
    rfl

/-- C1 (amended): with no data rows get_school_summary returns None, and the
returned totals satisfy total_activities == total_listen + total_read +
total_quizzes whenever every (cleaned) cell value reads as an integer; with
fractional cell values the separately truncated totals can differ from the
truncated grand total, because int() is applied to each float sum
independently. -/
theorem claim_C1_amended (files : List XFile) :
    (schoolAllData files = [] → get_school_summary files = none) ∧
    (∀ s, get_school_summary files = some s →
      (∀ f ∈ files, ∀ row ∈ fileRows f, ∀ c ∈ clean_row_data row,
        (cellVal c).den = 1) →
      s.total_activities = s.total_listen + s.total_read + s.total_quizzes) := by
  constructor
  · intro hempty
    simp only [get_school_summary]
    split_ifs with h1 h2
    · rfl
    · rfl
    · exact absurd (by rw [hempty]; rfl) h2
  · intro s h hcells
    have hrows : ∀ row ∈ schoolAllData files, ∀ c ∈ row, (cellVal c).den = 1 := by
      intro row hrow
      rcases List.mem_flatten.mp hrow with ⟨rl, hrl, hrow2⟩
      rcases List.mem_map.mp hrl with ⟨f, hf, rfl⟩
      rcases List.mem_map.mp hrow2 with ⟨r, hr, rfl⟩
      exact hcells f (List.mem_filter.mp (mem_sortBy.mp hf)).1 r hr
    have hint : ∀ i, ∃ z : ℤ,
        (((schoolAllData files).map (fun r => numAt r i)).sum) = (z : ℚ) := by
      intro i
      apply sum_int_of_den_one
      intro q hq
      rcases List.mem_map.mp hq with ⟨row, hrow, rfl⟩
      exact numAt_den_one_of_cells (hrows row hrow) i
    rcases hint STUDENT_USAGE_COL_LISTEN with ⟨zL, hL⟩
    rcases hint STUDENT_USAGE_COL_READ with ⟨zR, hR⟩
    rcases hint STUDENT_USAGE_COL_QUIZ with ⟨zQ, hQ⟩
    rw [get_school_summary_some h]
    simp only [hL, hR, hQ]
    rw [← Int.cast_add, ← Int.cast_add, truncQ_intCast, truncQ_intCast,
      truncQ_intCast, truncQ_intCast]

/-- A Student Usage file whose listen and read cells hold the float 2.5. -/
def c1FileW : XFile :=
  ⟨"ClassA_Student Usage_x.xlsx",
   some ⟨suHeaderW,
     [[Cell.str "S1", Cell.str "C", Cell.str "D", Cell.str "G", Cell.str "T",
       Cell.float (5 / 2), Cell.float (5 / 2), Cell.int 0, Cell.int 0,
       Cell.int 0]]⟩⟩

/-- C1 counterexample: one valid Student Usage file with listen 2.5 and
read 2.5 gives total_listen 2, total_read 2, total_quizzes 0 but
total_activities 5, so the claimed identity fails on the code. -/
theorem claim_C1_counterexample :
    get_school_summary [c1FileW] =
      some { all_teachers := 1, all_students := 1, total_listen := 2
             total_read := 2, total_quizzes := 0, total_activities := 5 } ∧
    (5 : ℤ) ≠ 2 + 2 + 0 := by
  exact ⟨by decide, by decide⟩

theorem claim_C1_witness :
    get_school_summary [suFileW] =
      some { all_teachers := 1, all_students := 1, total_listen := 5
             total_read := 3, total_quizzes := 2, total_activities := 10 } ∧
    (10 : ℤ) = 5 + 3 + 2 := by
  have h := (claim_C1_amended [suFileW]).2
    { all_teachers := 1, all_students := 1, total_listen := 5
      total_read := 3, total_quizzes := 2, total_activities := 10 }
    (by decide) (by decide)
  exact ⟨by decide, h⟩

/-! Claim C8: order independence. -/

theorem isEmpty_eq_of_perm {l₁ l₂ : List α} (h : l₁.Perm l₂) :
    l₁.isEmpty = l₂.isEmpty := by
  cases l₁ with
  | nil => rw [← h.nil_eq]
  | cons a t =>
    cases l₂ with
    | nil => exact absurd h.symm.nil_eq (by simp)
    | cons b t₂ => rfl

theorem sortFiles_eq_of_perm {l₁ l₂ : List XFile} (h : l₁.Perm l₂)
    (hnd : (l₁.map XFile.name).Nodup) : sortFiles l₁ = sortFiles l₂ := by
  simp only [sortFiles]
  apply sorted_eq_of_perm
    ((sortBy_perm _ l₁).trans (h.trans (sortBy_perm _ l₂).symm))
  · exact sortBy_sorted _ (fun (a b c : XFile) => pyLe_trans a.name b.name c.name)
      (fun (a b : XFile) => pyLe_total a.name b.name) l₁
  · exact sortBy_sorted _ (fun (a b c : XFile) => pyLe_trans a.name b.name c.name)
      (fun (a b : XFile) => pyLe_total a.name b.name) l₂
  · intro a b ha hb hab hba
    have hname : a.name = b.name := pyLe_antisymm _ _ hab hba
    exact List.inj_on_of_nodup_map hnd (mem_sortBy.mp ha) (mem_sortBy.mp hb) hname

/-- C8: for a directory listing (distinct filenames), processing any
permutation of the file list yields the same school summary and the same
classroom summaries - every summed total and count is order-independent. -/
theorem claim_C8 (l₁ l₂ : List XFile) (hperm : l₁.Perm l₂)
    (hnd : (l₁.map XFile.name).Nodup) :
    get_school_summary l₁ = get_school_summary l₂ ∧
    get_classroom_summaries l₁ = get_classroom_summaries l₂ := by
  have hfperm : (studentUsageFiles l₁).Perm (studentUsageFiles l₂) := by
    simp only [studentUsageFiles]
    exact hperm.filter _
  have hfsub : ((studentUsageFiles l₁).map XFile.name).Nodup := by
    refine List.Nodup.sublist ?_ hnd
    exact List.Sublist.map XFile.name (List.filter_sublist l₁)
  have hsort : sortFiles (studentUsageFiles l₁) = sortFiles (studentUsageFiles l₂) :=
    sortFiles_eq_of_perm hfperm hfsub
  have hlen : (studentUsageFiles l₁).length = (studentUsageFiles l₂).length :=
    hfperm.length_eq
  have hempty : (studentUsageFiles l₁).isEmpty = (studentUsageFiles l₂).isEmpty :=
    isEmpty_eq_of_perm hfperm
  constructor
  · simp only [get_school_summary, schoolAllData, hsort, hlen, hempty]
  · simp only [get_classroom_summaries, hsort, hempty]

/-- A second valid Student Usage fixture file, for classroom ClassB. -/
def suFileW2 : XFile :=
  ⟨"ClassB_Student Usage_y.xlsx",
   some ⟨suHeaderW,
     [[Cell.str "S2", Cell.str "C", Cell.str "D", Cell.str "G", Cell.str "T",
       Cell.int 1, Cell.int 1, Cell.int 1, Cell.int 0, Cell.int 0]]⟩⟩

theorem claim_C8_witness :
    get_school_summary [suFileW, suFileW2] = get_school_summary [suFileW2, suFileW] ∧
    get_classroom_summaries [suFileW, suFileW2] =
      get_classroom_summaries [suFileW2, suFileW] :=
  claim_C8 [suFileW, suFileW2] [suFileW2, suFileW]
    (List.Perm.swap suFileW2 suFileW []) (by decide)

/-! Claim C3: combined workbook. -/

theorem filterMap_singleton_of {g : α → Option β} :
    ∀ {L : List α} {a : α} {b : β}, a ∈ L → L.Nodup → g a = some b →
    (∀ x ∈ L, x ≠ a → g x = none) → L.filterMap g = [b] := by
  intro L
  induction L with
  | nil => intro a b hmem; cases hmem
  | cons x xs ih =>
    intro a b hmem hnd ha hother
    rcases List.mem_cons.mp hmem with rfl | hmem2
    · rw [List.filterMap_cons, ha]
      have hnil : xs.filterMap g = [] := by
        rw [List.filterMap_eq_nil_iff]
        intro y hy
        refine hother y (List.mem_cons_of_mem a hy) ?_
        intro he
        exact (List.nodup_cons.mp hnd).1 (he ▸ hy)
      rw [hnil]
    · have hxa : x ≠ a := by
        intro he
        exact (List.nodup_cons.mp hnd).1 (he ▸ hmem2)
      rw [List.filterMap_cons, hother x (List.mem_cons_self x xs) hxa]
      exact ih hmem2 (List.nodup_cons.mp hnd).2 ha
        (fun y hy => hother y (List.mem_cons_of_mem x hy))

theorem sheetFold_stats :
    ∀ (fs : List XFile) (acc : SheetAcc),
      (fs.foldl sheetFileStep acc).seps.length =
        acc.seps.length + (fs.filter isGoodFile).length ∧
      acc.data.length + (fs.filter isGoodFile).length ≤
        (fs.foldl sheetFileStep acc).data.length := by
  intro fs
  induction fs with
  | nil => intro acc; simp
  | cons f rest ih =>
    intro acc
    simp only [List.foldl_cons]
    cases hc : f.content with
    | none =>
      have hbad : isGoodFile f = false := by
        simp [isGoodFile, fileRows, hc]
      have hfil : List.filter isGoodFile (f :: rest) = List.filter isGoodFile rest := by
        rw [List.filter_cons, hbad]
        simp
      have hstep : sheetFileStep acc f = acc := by
        simp [sheetFileStep, hc]
      rw [hfil, hstep]
      exact ih acc
    | some t =>
      by_cases hrows : t.rows.isEmpty
      · have hbad : isGoodFile f = false := by
          simp [isGoodFile, fileRows, hc, hrows]
        have hfil : List.filter isGoodFile (f :: rest) = List.filter isGoodFile rest := by
          rw [List.filter_cons, hbad]
          simp
        have hstep : sheetFileStep acc f = acc := by
          simp [sheetFileStep, hc, hrows]
        rw [hfil, hstep]
        exact ih acc
      · have hgood : isGoodFile f = true := by
          simp [isGoodFile, fileRows, hc, hrows]
        have hfil : List.filter isGoodFile (f :: rest) = f :: List.filter isGoodFile rest := by
          rw [List.filter_cons, if_pos hgood]
        have hstep : sheetFileStep acc f =
            { header := if acc.header.isNone then some t.header else acc.header
              data := (acc.data ++
                [create_separator_row
                  (if pyIn "_" f.name then pySplitHead "_" f.name else f.name)
                  t.header.length]) ++ t.rows.map clean_row_data
              seps := acc.seps ++
                [(acc.data ++
                  [create_separator_row
                    (if pyIn "_" f.name then pySplitHead "_" f.name else f.name)
                    t.header.length]).length - 1] } := by
          simp [sheetFileStep, hc, hrows]
        rw [hfil, hstep]
        rcases ih { header := if acc.header.isNone then some t.header else acc.header
                    data := (acc.data ++
                      [create_separator_row
                        (if pyIn "_" f.name then pySplitHead "_" f.name else f.name)
                        t.header.length]) ++ t.rows.map clean_row_data
                    seps := acc.seps ++
                      [(acc.data ++
                        [create_separator_row
                          (if pyIn "_" f.name then pySplitHead "_" f.name else f.name)
                          t.header.length]).length - 1] } with ⟨h1, h2⟩
        constructor
        · rw [h1]
          dsimp only
          simp only [List.length_append, List.length_cons, List.length_nil]
          omega
        · refine le_trans ?_ h2
          dsimp only
          simp only [List.length_append, List.length_cons, List.length_nil]
          omega

theorem createCombinedSheet_valid (names : List String) (t : String)
    (files : List XFile) (hne : files ≠ [])
    (hgood : ∀ f ∈ files, isGoodFile f = true) :
    (createCombinedSheet names t files).2 = true ∧
    (createCombinedSheet names t files).1.separator_rows.length = files.length := by
  rcases sheetFold_stats (sortFiles files) ⟨none, [], []⟩ with ⟨h1, h2⟩
  have hfil : (sortFiles files).filter isGoodFile = sortFiles files :=
    List.filter_eq_self.mpr (fun f hf => hgood f (mem_sortBy.mp hf))
  have hlen : (sortFiles files).length = files.length := (sortBy_perm _ _).length_eq
  have hpos : 0 < files.length := List.length_pos.mpr hne
  have hdata : ¬ ((sortFiles files).foldl sheetFileStep ⟨none, [], []⟩).data.isEmpty := by
    rw [hfil, hlen] at h2
    intro hemp
    have := congrArg List.length (List.isEmpty_iff.mp hemp)
    simp only [List.length_nil] at this
    omega
  constructor
  · simp only [createCombinedSheet]
    rw [if_neg hdata]
  · simp only [createCombinedSheet]
    rw [if_neg hdata]
    dsimp only
    rw [h1, hfil, hlen]
    simp

/-- C3: with zero files matching any report-type pattern combine_all_reports
returns None (no output file); with a nonempty set of valid files all of one
report type it returns a workbook of exactly one sheet whose separator-row
count equals the number of files. -/
theorem claim_C3 :
    (∀ files : List XFile,
      (∀ t ∈ REPORT_TYPES, ∀ f ∈ files, matchesPattern t f.name = false) →
      combine_all_reports files = none) ∧
    (∀ (files : List XFile) (t : String), t ∈ REPORT_TYPES → files ≠ [] →
      (∀ f ∈ files, matchesPattern t f.name = true) →
      (∀ t' ∈ REPORT_TYPES, t' ≠ t → ∀ f ∈ files, matchesPattern t' f.name = false) →
      (∀ f ∈ files, isGoodFile f = true) →
      ∃ sheet, combine_all_reports files = some [sheet] ∧
        sheet.separator_rows.length = files.length) := by
  constructor
  · intro files h
    have hbt : REPORT_TYPES.filterMap (fun t =>
        let fs := files.filter (fun f => matchesPattern t f.name)
        if fs.isEmpty then none else some (t, fs)) = [] := by
      rw [List.filterMap_eq_nil_iff]
      intro t ht
      have : files.filter (fun f => matchesPattern t f.name) = [] := by
        rw [List.filter_eq_nil_iff]
        intro f hf
        rw [h t ht f hf]
        simp
      simp only [this]
      rfl
    simp only [combine_all_reports, hbt]
    rfl
  · intro files t ht hne hmatch hother hgood
    have hft : files.filter (fun f => matchesPattern t f.name) = files :=
      List.filter_eq_self.mpr (fun f hf => hmatch f hf)
    have hbt : REPORT_TYPES.filterMap (fun t' =>
        let fs := files.filter (fun f => matchesPattern t' f.name)
        if fs.isEmpty then none else some (t', fs)) = [(t, files)] := by
      refine filterMap_singleton_of ht (by decide) ?_ ?_
      · simp only [hft]
        rw [if_neg (by simpa [List.isEmpty_iff] using hne)]
      · intro t' ht' hne'
        have : files.filter (fun f => matchesPattern t' f.name) = [] := by
          rw [List.filter_eq_nil_iff]
          intro f hf
          rw [hother t' ht' hne' f hf]
          simp
        simp only [this]
        rfl
    rcases createCombinedSheet_valid [] t files hne hgood with ⟨hok, hseps⟩
    refine ⟨(createCombinedSheet [] t files).1, ?_, hseps⟩
    simp only [combine_all_reports, hbt]
    rw [if_neg (by simp)]
    simp only [List.foldl_cons, List.foldl_nil, List.map_nil, List.nil_append,
      hok, if_true]
    rfl

theorem claim_C3_witness :
    (∃ sheet, combine_all_reports [skFileW] = some [sheet] ∧
      sheet.separator_rows.length = 1) ∧
    combine_all_reports [⟨"notes.txt", none⟩] = none := by
  constructor
  · have h := claim_C3.2 [skFileW] "Skill" (by decide) (by decide) (by decide)
      (by decide) (by decide)
    simpa using h
  · exact claim_C3.1 [⟨"notes.txt", none⟩] (by decide)

/-! Claim C7: per-file and per-row failure handling. -/

theorem fileRows_eq_nil {f : XFile} (h : isGoodFile f = false) :
    fileRows f = [] := by
  simp only [isGoodFile, Bool.not_eq_false'] at h
  exact List.isEmpty_iff.mp h

theorem foldl_filter_of_skip {β : Type} (step : β → XFile → β)
    (hskip : ∀ (m : β) (f : XFile), isGoodFile f = false → step m f = m) :
    ∀ (fs : List XFile) (m : β),
      fs.foldl step m = (fs.filter isGoodFile).foldl step m := by
  intro fs
  induction fs with
  | nil => intro m; rfl
  | cons f rest ih =>
    intro m
    cases hg : isGoodFile f with
    | true =>
      rw [List.filter_cons, if_pos hg]
      simp only [List.foldl_cons]
      exact ih (step m f)
    | false =>
      have hfil : List.filter isGoodFile (f :: rest) = List.filter isGoodFile rest := by
        rw [List.filter_cons, hg]
        simp
      rw [hfil]
      simp only [List.foldl_cons, hskip m f hg]
      exact ih m

theorem processSUFile_skip (m : List ClassSum) (f : XFile)
    (h : isGoodFile f = false) : processSUFile m f = m := by
  simp [processSUFile, fileRows_eq_nil h]

theorem sheetFileStep_skip (acc : SheetAcc) (f : XFile)
    (h : isGoodFile f = false) : sheetFileStep acc f = acc := by
  have hrows := fileRows_eq_nil h
  cases hc : f.content with
  | none => simp [sheetFileStep, hc]
  | some t =>
    simp only [fileRows, hc] at hrows
    by_cases he : t.rows.isEmpty
    · simp [sheetFileStep, hc, he]
    · rw [if_neg he] at hrows
      exact absurd (by rw [hrows]; rfl) he

theorem sortFiles_filter_good {l : List XFile}
    (hnd : (l.map XFile.name).Nodup) :
    (sortFiles l).filter isGoodFile = sortFiles (l.filter isGoodFile) := by
  refine @sorted_eq_of_perm XFile (fun a b => pyLe a.name b.name) _ _ ?_ ?_ ?_ ?_
  · exact ((sortBy_perm _ l).filter isGoodFile).trans
      (sortBy_perm _ (l.filter isGoodFile)).symm
  · exact List.Pairwise.filter _
      (sortBy_sorted _ (fun (a b c : XFile) => pyLe_trans a.name b.name c.name)
        (fun (a b : XFile) => pyLe_total a.name b.name) l)
  · exact sortBy_sorted _ (fun (a b c : XFile) => pyLe_trans a.name b.name c.name)
      (fun (a b : XFile) => pyLe_total a.name b.name) (l.filter isGoodFile)
  · intro a b ha hb hab hba
    have hname : a.name = b.name := pyLe_antisymm _ _ hab hba
    have ha2 : a ∈ l := mem_sortBy.mp (List.mem_of_mem_filter ha)
    have hb2 : b ∈ l := mem_sortBy.mp (List.mem_of_mem_filter hb)
    exact List.inj_on_of_nodup_map hnd ha2 hb2 hname

theorem students_sum_updateClass :
    ∀ (m : List ClassSum) (k : String) (row : List Cell),
      ((updateClass m k row).map ClassSum.students).sum =
        (m.map ClassSum.students).sum + 1 := by
  intro m
  induction m with
  | nil => intro k row; simp [updateClass, addRow, initClass]
  | cons c rest ih =>
    intro k row
    simp only [updateClass]
    by_cases hk : c.name = k
    · rw [if_pos hk]
      simp only [List.map_cons, List.sum_cons, addRow]
      omega
    · rw [if_neg hk]
      simp only [List.map_cons, List.sum_cons, ih]
      omega

theorem students_sum_rows (k : String) :
    ∀ (rows : List (List Cell)) (m : List ClassSum),
      ((rows.foldl (fun m' row => updateClass m' k row) m).map
        ClassSum.students).sum = (m.map ClassSum.students).sum + rows.length := by
  intro rows
  induction rows with
  | nil => intro m; simp
  | cons r rest ih =>
    intro m
    simp only [List.foldl_cons, List.length_cons, ih, students_sum_updateClass]
    omega

theorem students_sum_files :
    ∀ (fs : List XFile) (m : List ClassSum),
      ((fs.foldl processSUFile m).map ClassSum.students).sum =
        (m.map ClassSum.students).sum +
          (fs.map (fun f => (fileRows f).length)).sum := by
  intro fs
  induction fs with
  | nil => intro m; simp
  | cons f rest ih =>
    intro m
    simp only [List.foldl_cons, List.map_cons, List.sum_cons, ih]
    have : ((processSUFile m f).map ClassSum.students).sum =
        (m.map ClassSum.students).sum + (fileRows f).length := by
      simp only [processSUFile]
      rw [students_sum_rows]
      simp
    rw [this]
    omega

theorem finalizeUsage_students (c : ClassSum) :
    (finalizeUsage c).students = c.students := by
  unfold finalizeUsage
  split <;> rfl

/-- C7 (amended): corrupt (missing/zero-length/unparsable/empty) files are
skipped without aborting: the classroom summaries equal those computed from
the good files alone, and a combined sheet's header, data rows, separator
rows and success flag equal those computed from the good files alone; a
malformed numeric cell contributes 0 while its row is still counted - the
students of all classrooms sum to the number of rows of all good files. The
exceptions the code carries: the school summary's teacher counts include
corrupt matched files, and the Skill aggregator drops the rest of a file
after an unparsable accuracy cell. -/
theorem claim_C7_amended (files : List XFile)
    (hnd : (files.map XFile.name).Nodup) :
    get_classroom_summaries files =
      get_classroom_summaries (files.filter isGoodFile) ∧
    (∀ names t,
      (createCombinedSheet names t files).1.header =
        (createCombinedSheet names t (files.filter isGoodFile)).1.header ∧
      (createCombinedSheet names t files).1.data =
        (createCombinedSheet names t (files.filter isGoodFile)).1.data ∧
      (createCombinedSheet names t files).1.separator_rows =
        (createCombinedSheet names t (files.filter isGoodFile)).1.separator_rows ∧
      (createCombinedSheet names t files).2 =
        (createCombinedSheet names t (files.filter isGoodFile)).2) ∧
    (∀ out, get_classroom_summaries files = some out →
      (out.map ClassSum.students).sum =
        ((sortFiles (studentUsageFiles files)).map
          (fun f => (fileRows f).length)).sum) := by
  have hAnd : ((studentUsageFiles files).map XFile.name).Nodup := by
    refine List.Nodup.sublist ?_ hnd
    exact List.Sublist.map XFile.name (List.filter_sublist files)
  have hA' : studentUsageFiles (files.filter isGoodFile) =
      (studentUsageFiles files).filter isGoodFile := by
    simp only [studentUsageFiles]
    exact List.filter_comm _ _ files
  have hfold : (sortFiles (studentUsageFiles files)).foldl processSUFile [] =
      (sortFiles ((studentUsageFiles files).filter isGoodFile)).foldl
        processSUFile [] := by
    rw [foldl_filter_of_skip processSUFile processSUFile_skip, sortFiles_filter_good hAnd]
  refine ⟨?_, ?_, ?_⟩
  · simp only [get_classroom_summaries, hA']
    by_cases hAe : (studentUsageFiles files).isEmpty
    · rw [if_pos hAe]
      rw [if_pos (by rw [List.isEmpty_iff.mp hAe]; rfl)]
    · rw [if_neg hAe]
      by_cases hA'e : ((studentUsageFiles files).filter isGoodFile).isEmpty
      · rw [if_pos hA'e]
        have hm : (sortFiles (studentUsageFiles files)).foldl processSUFile [] = [] := by
          rw [hfold, List.isEmpty_iff.mp hA'e]
          rfl
        rw [if_pos (by rw [hm]; rfl)]
      · rw [if_neg hA'e, hfold]
  · intro names t
    have hacc : (sortFiles files).foldl sheetFileStep ⟨none, [], []⟩ =
        (sortFiles (files.filter isGoodFile)).foldl sheetFileStep ⟨none, [], []⟩ := by
      rw [foldl_filter_of_skip sheetFileStep sheetFileStep_skip, sortFiles_filter_good hnd]
    simp only [createCombinedSheet, hacc]
    by_cases hd : ((sortFiles (files.filter isGoodFile)).foldl sheetFileStep
        ⟨none, [], []⟩).data.isEmpty
    · rw [if_pos hd, if_pos hd]
      refine ⟨?_, ?_, ?_, ?_⟩ <;> rfl
    · rw [if_neg hd, if_neg hd]
      refine ⟨?_, ?_, ?_, ?_⟩ <;> rfl
  · intro out hout
    rw [get_classroom_summaries_some hout]
    have hperm := sortBy_perm (fun (a b : ClassSum) => pyLe a.name b.name)
      (((sortFiles (studentUsageFiles files)).foldl processSUFile []).map
        finalizeUsage)
    rw [(hperm.map ClassSum.students).sum_eq, List.map_map]
    have hcomp : ClassSum.students ∘ finalizeUsage = ClassSum.students := by
      funext c
      exact finalizeUsage_students c
    rw [hcomp, students_sum_files]
    simp

/-- A Student Usage file that is missing or unreadable - the aggregators
skip it. -/
def badFileW : XFile := ⟨"ClassB_Student Usage_bad.xlsx", none⟩

/-- A Skill file whose second row has an unparsable accuracy cell. -/
def skFile3W : XFile :=
  ⟨"C1_Skill_x.xlsx",
   some ⟨[Cell.str "Skill", Cell.str "Correct", Cell.str "Total", Cell.str "Accuracy"],
     [[Cell.str "Phonics", Cell.int 8, Cell.int 10, Cell.int 0],
      [Cell.str "Vocabulary", Cell.int 3, Cell.int 4, Cell.str "N/A"],
      [Cell.str "Fluency", Cell.int 5, Cell.int 5, Cell.int 0]]⟩⟩

/-- C7 counterexample: an unreadable Student Usage file does change the
result computed from the other files - it is counted in all_teachers - and
a malformed accuracy cell in a Skill file drops its row (and the rest of
the file) instead of defaulting the cell to zero: a three-row file yields a
single skill. -/
theorem claim_C7_counterexample :
    get_school_summary [suFileW, badFileW] ≠ get_school_summary [suFileW] ∧
    (get_school_summary [suFileW, badFileW]).map SchoolSummary.all_teachers =
      some 2 ∧
    (get_school_summary [suFileW]).map SchoolSummary.all_teachers = some 1 ∧
    (fileRows skFile3W).length = 3 ∧
    get_reading_skills_data [skFile3W] =
      some [⟨"C1", [⟨"Phonics", 8, 10, 80⟩]⟩] := by
  exact ⟨by decide, by decide, by decide, by decide, by rfl⟩

theorem claim_C7_witness :
    get_classroom_summaries [suFileW, badFileW] =
      get_classroom_summaries ([suFileW, badFileW].filter isGoodFile) ∧
    ([outC2W].map ClassSum.students).sum =
      ((sortFiles (studentUsageFiles [suFileW, badFileW])).map
        (fun f => (fileRows f).length)).sum := by
  have h := claim_C7_amended [suFileW, badFileW] (by decide)
  exact ⟨h.1, h.2.2 [outC2W] (by decide)⟩

/-! Claim C9: unique sheet names. -/

theorem uniqueNameLoop_eq :
    ∀ (d : ℕ) (sanitized : String) (existing : List String) (target counter : ℕ),
      target - counter = d → 1 ≤ counter → counter ≤ target → target ≤ 999 →
      ((⟨sanitized.data.take (EXCEL_MAX_SHEET_NAME_LENGTH - 3)⟩ : String) ++ "_" ++
        toString target) ∉ existing →
      (∀ c, counter ≤ c → c < target →
        ((⟨sanitized.data.take (EXCEL_MAX_SHEET_NAME_LENGTH - 3)⟩ : String) ++ "_" ++
          toString c) ∈ existing) →
      uniqueNameLoop sanitized existing counter =
        (⟨sanitized.data.take (EXCEL_MAX_SHEET_NAME_LENGTH - 3)⟩ : String) ++ "_" ++
          toString target := by
  intro d
  induction d with
  | zero =>
    intro sanitized existing target counter hd h1 h2 h3 hnot hin
    have hct : counter = target := by omega
    subst hct
    rw [uniqueNameLoop]
    rw [if_neg hnot]
  | succ n ih =>
    intro sanitized existing target counter hd h1 h2 h3 hnot hin
    have hlt : counter < target := by omega
    rw [uniqueNameLoop]
    rw [if_pos (hin counter le_rfl hlt)]
    rw [if_neg (show ¬ 999 < counter + 1 by omega)]
    exact ih sanitized existing target (counter + 1) (by omega) (by omega)
      (by omega) h3 hnot (fun c hc1 hc2 => hin c (by omega) hc2)

theorem sanitize_sheet_name_chars (p : String) :
    ∀ ch ∈ (sanitize_sheet_name p).data, ch ∉ EXCEL_INVALID_SHEET_CHARS := by
  intro ch hch
  simp only [sanitize_sheet_name] at hch
  rcases List.mem_map.mp hch with ⟨c, _, rfl⟩
  by_cases hmem : c ∈ EXCEL_INVALID_SHEET_CHARS
  · rw [if_pos hmem]; decide
  · rw [if_neg hmem]; exact hmem

theorem sanitize_sheet_name_length (p : String) :
    (sanitize_sheet_name p).length ≤ 31 := by
  have : (sanitize_sheet_name p).length =
      ((p.data.take EXCEL_MAX_SHEET_NAME_LENGTH).map
        (fun ch => if ch ∈ EXCEL_INVALID_SHEET_CHARS then '_' else ch)).length := rfl
  rw [this, List.length_map, List.length_take]
  simp [EXCEL_MAX_SHEET_NAME_LENGTH]

theorem toString_nat_length_le (n : ℕ) (h : n ≤ 99) : (toString n).length ≤ 2 := by
  have hall : ∀ m < 100, (toString m).length ≤ 2 := by decide
  exact hall n (by omega)

theorem toString_nat_chars (n : ℕ) (h : n ≤ 99) :
    ∀ ch ∈ (toString n).data, ch ∉ EXCEL_INVALID_SHEET_CHARS := by
  have hall : ∀ m < 100, ∀ ch ∈ (toString m).data,
      ch ∉ EXCEL_INVALID_SHEET_CHARS := by decide
  exact hall n (by omega)

/-- C9 (amended): make_unique_sheet_name is a pure function whose result
never contains an Excel-invalid character; and provided that on collision
one of the first 99 numeric suffixes is free, the result has at most 31
characters and is not in the existing-name list. Without that proviso both
guarantees fail: three-digit suffixes on a 28-character base give 32
characters, and after suffix 999 the fallback base_X may itself collide. -/
theorem claim_C9_amended (proposed_name : String) (existing_names : List String)
    (h : sanitize_sheet_name proposed_name ∈ existing_names →
      ∃ n, 1 ≤ n ∧ n ≤ 99 ∧
        ((⟨(sanitize_sheet_name proposed_name).data.take
            (EXCEL_MAX_SHEET_NAME_LENGTH - 3)⟩ : String) ++ "_" ++ toString n) ∉
          existing_names) :
    (∀ ch ∈ (make_unique_sheet_name proposed_name existing_names).data,
      ch ∉ EXCEL_INVALID_SHEET_CHARS) ∧
    (make_unique_sheet_name proposed_name existing_names).length ≤ 31 ∧
    make_unique_sheet_name proposed_name existing_names ∉ existing_names := by
  by_cases hs : sanitize_sheet_name proposed_name ∈ existing_names
  · have hex := h hs
    have hspec := Nat.find_spec hex
    have hmu : make_unique_sheet_name proposed_name existing_names =
        uniqueNameLoop (sanitize_sheet_name proposed_name) existing_names 1 := by
      simp only [make_unique_sheet_name]
      rw [if_pos hs]
    have hin : ∀ c, 1 ≤ c → c < Nat.find hex →
        ((⟨(sanitize_sheet_name proposed_name).data.take
            (EXCEL_MAX_SHEET_NAME_LENGTH - 3)⟩ : String) ++ "_" ++ toString c) ∈
          existing_names := by
      intro c h1c h2c
      by_contra hnc
      exact Nat.find_min hex h2c ⟨h1c, by omega, hnc⟩
    have hloop := uniqueNameLoop_eq (Nat.find hex - 1)
      (sanitize_sheet_name proposed_name) existing_names (Nat.find hex) 1
      (by omega) le_rfl (by omega) (by omega) hspec.2.2 hin
    rw [hmu, hloop]
    refine ⟨?_, ?_, hspec.2.2⟩
    · intro ch hch
      rw [String.data_append, String.data_append] at hch
      rcases List.mem_append.mp hch with hch | hch
      · rcases List.mem_append.mp hch with hch | hch
        · exact sanitize_sheet_name_chars proposed_name ch
            (List.mem_of_mem_take hch)
        · have : ch = '_' := by simpa using hch
          rw [this]; decide
      · exact toString_nat_chars (Nat.find hex) hspec.2.1 ch hch
    · rw [String.length_append, String.length_append]
      have h1 : (String.mk ((sanitize_sheet_name proposed_name).data.take
          (EXCEL_MAX_SHEET_NAME_LENGTH - 3))).length ≤ 28 := by
        have : (String.mk ((sanitize_sheet_name proposed_name).data.take
            (EXCEL_MAX_SHEET_NAME_LENGTH - 3))).length =
            ((sanitize_sheet_name proposed_name).data.take
              (EXCEL_MAX_SHEET_NAME_LENGTH - 3)).length := rfl
        rw [this, List.length_take]
        simp [EXCEL_MAX_SHEET_NAME_LENGTH]
      have h2 := toString_nat_length_le (Nat.find hex) hspec.2.1
      have h3 : ("_" : String).length = 1 := rfl
      omega
  · have hmu : make_unique_sheet_name proposed_name existing_names =
        sanitize_sheet_name proposed_name := by
      simp only [make_unique_sheet_name]
      rw [if_neg hs]
    rw [hmu]
    exact ⟨sanitize_sheet_name_chars proposed_name,
      sanitize_sheet_name_length proposed_name, hs⟩

/-- A proposed sheet name of exactly 28 characters. -/
def pC9 : String := "ABCDEFGHIJKLMNOPQRSTUVWXYZAB"

/-- Existing sheet names occupying the proposed name and its suffixes _1
through _99. -/
def eC9 : List String :=
  pC9 :: (List.range 99).map (fun i => pC9 ++ "_" ++ toString (i + 1))

/-- C9 counterexample: with a 28-character proposed name whose suffixes _1
to _99 are all taken, make_unique_sheet_name returns base_100, which is 32
characters long - more than the claimed 31-character bound. -/
theorem claim_C9_counterexample :
    31 < (make_unique_sheet_name pC9 eC9).length := by
  have hmu : make_unique_sheet_name pC9 eC9 =
      uniqueNameLoop (sanitize_sheet_name pC9) eC9 1 := by
    simp only [make_unique_sheet_name]
    rw [if_pos (by decide)]
  have hnot : ((⟨(sanitize_sheet_name pC9).data.take
      (EXCEL_MAX_SHEET_NAME_LENGTH - 3)⟩ : String) ++ "_" ++ toString 100) ∉
      eC9 := by decide
  have hin : ∀ c, 1 ≤ c → c < 100 →
      ((⟨(sanitize_sheet_name pC9).data.take
        (EXCEL_MAX_SHEET_NAME_LENGTH - 3)⟩ : String) ++ "_" ++ toString c) ∈
        eC9 := by
    intro c h1 h2
    have hbase : (⟨(sanitize_sheet_name pC9).data.take
        (EXCEL_MAX_SHEET_NAME_LENGTH - 3)⟩ : String) = pC9 := by decide
    rw [hbase]
    refine List.mem_cons_of_mem _
      (List.mem_map.mpr ⟨c - 1, List.mem_range.mpr (by omega), ?_⟩)
    have hc : c - 1 + 1 = c := by omega
    rw [hc]
  have hloop := uniqueNameLoop_eq 99 (sanitize_sheet_name pC9) eC9 100 1
    (by omega) le_rfl (by omega) (by omega) hnot hin
  rw [hmu, hloop]
  decide

theorem claim_C9_witness :
    (make_unique_sheet_name "Skill" ["Skill"]).length ≤ 31 ∧
    make_unique_sheet_name "Skill" ["Skill"] ∉ ["Skill"] := by
  have h := claim_C9_amended "Skill" ["Skill"]
    (fun _ => ⟨1, le_rfl, by omega, by decide⟩)
  exact ⟨h.2.1, h.2.2⟩
